import Mathlib

/-!
Verification of the strategy backtesting engine of the Trading_bot repository
(`backend/app/services/backtest_service.py` and `backend/app/utils/indicators.py`).

The price series is modelled as the list of closing prices (exact rationals in
place of IEEE doubles; the date column is a pure formatting concern and is not
modelled, and the free-form diagnostic `signal` strings attached to trades are
likewise omitted).  pandas NaN propagation, which the RSI computation relies
on, is modelled explicitly by the type `F` of IEEE-style extended values
(finite / +inf / -inf / NaN).  Python's `round(x, n)` (round-half-to-even) and
`int(x)` (truncation towards zero) are modelled exactly.  Rational division is
total (`x / 0 = 0`), so the Python `ZeroDivisionError` that a zero close
price, zero initial capital or zero equity peak would raise (and which the
orchestrator's `except` clause would turn into a failure payload) is not
modelled; theorems about metric values therefore assume positive prices and
capital wherever those divisions are reachable.
-/

namespace TradingBot

/-- Python `int(x)`: truncation towards zero. -/
def pyInt (x : ℚ) : ℤ := if x < 0 then ⌈x⌉ else ⌊x⌋

/-- Round a rational to the nearest integer, ties to even (Python `round`). -/
def roundHalfEven (x : ℚ) : ℤ :=
  if x - ⌊x⌋ = 1/2 then (if Even ⌊x⌋ then ⌊x⌋ else ⌊x⌋ + 1) else round x

/-- Python `round(x, d)` on an ideal (exact) decimal value. -/
def pyRound (d : ℕ) (x : ℚ) : ℚ := (roundHalfEven (x * 10 ^ d) : ℚ) / 10 ^ d

/-- The trailing window of size `p` ending at index `i` (used by
`Series.rolling(window=p)`): the last `min p (i+1)` elements among the first
`i+1` elements. -/
def windowAt (xs : List ℚ) (p i : ℕ) : List ℚ := (xs.take (i + 1)).drop (i + 1 - p)

/-- pandas `Series.rolling(window=p).mean()`: `none` (NaN) while the window is
not yet full, otherwise the arithmetic mean of the trailing `p` values. -/
def rollingMean (p : ℕ) (xs : List ℚ) : List (Option ℚ) :=
  (List.range xs.length).map fun i =>
    if i + 1 < p then none else some ((windowAt xs p i).sum / p)

/-- pandas `Series.rolling(window=p).std()` squared, i.e. the rolling sample
variance with `ddof = 1` (divisor `p - 1`); `none` (NaN) while the window is
not full and also for `p = 1` (a single observation with `ddof = 1` is 0/0). -/
def rollingVar (p : ℕ) (xs : List ℚ) : List (Option ℚ) :=
  (List.range xs.length).map fun i =>
    if i + 1 < p ∨ p < 2 then none
    else some
      (((windowAt xs p i).map (fun x => (x - (windowAt xs p i).sum / p) ^ 2)).sum
        / ((p : ℚ) - 1))

/-- IEEE-754-style value of a pandas float64 series entry: NaN, an infinity, or
a finite value (modelled as an exact rational). -/
inductive F where
  | nan : F
  | inf : F
  | ninf : F
  | val : ℚ → F
deriving DecidableEq

/-- IEEE addition restricted to the values that occur here. -/
def F.add : F → F → F
  | .nan, _ => .nan
  | _, .nan => .nan
  | .inf, .ninf => .nan
  | .ninf, .inf => .nan
  | .inf, _ => .inf
  | _, .inf => .inf
  | .ninf, _ => .ninf
  | _, .ninf => .ninf
  | .val a, .val b => .val (a + b)

/-- IEEE subtraction. -/
def F.sub : F → F → F
  | .nan, _ => .nan
  | _, .nan => .nan
  | .inf, .inf => .nan
  | .ninf, .ninf => .nan
  | .inf, _ => .inf
  | _, .inf => .ninf
  | .ninf, _ => .ninf
  | _, .ninf => .inf
  | .val a, .val b => .val (a - b)

/-- IEEE division: `0/0` and `inf/inf` are NaN, `x/0` for `x ≠ 0` is a signed
infinity (this is numpy/pandas semantics — Python float `/` would raise — and
elementwise pandas Series division is what the RSI code performs). -/
def F.div : F → F → F
  | .nan, _ => .nan
  | _, .nan => .nan
  | .inf, .inf => .nan
  | .inf, .ninf => .nan
  | .ninf, .inf => .nan
  | .ninf, .ninf => .nan
  | .inf, .val b => if b < 0 then .ninf else .inf
  | .ninf, .val b => if b < 0 then .inf else .ninf
  | .val _, .inf => .val 0
  | .val _, .ninf => .val 0
  | .val a, .val b =>
    if b = 0 then (if a = 0 then .nan else if 0 < a then .inf else .ninf)
    else .val (a / b)

/-- Interpret a rolling-mean entry (`none` = NaN) as an IEEE value. -/
def F.ofOpt : Option ℚ → F
  | none => .nan
  | some q => .val q

/-- pandas `Series.diff()`: NaN at index 0, consecutive differences after. -/
def diffF : List ℚ → List F
  | [] => []
  | x :: rest => F.nan :: List.zipWith (fun a b => F.val (b - a)) (x :: rest) rest

/-- `delta.where(delta > 0, 0)` of `calculate_rsi`: the positive deltas, with
the index-0 NaN replaced by 0 (a NaN comparison is false, so `where` replaces
it). -/
def rsiGains (prices : List ℚ) : List ℚ :=
  (diffF prices).map fun d => match d with
    | .val q => if 0 < q then q else 0
    | _ => 0

/-- `(-delta.where(delta < 0, 0))` of `calculate_rsi`: magnitudes of the
negative deltas, the index-0 NaN replaced by 0. -/
def rsiLosses (prices : List ℚ) : List ℚ :=
  (diffF prices).map fun d => match d with
    | .val q => if q < 0 then -q else 0
    | _ => 0

/-- `gain` of `calculate_rsi`: rolling mean of the positive deltas. -/
def rsiGainAvg (prices : List ℚ) (period : ℕ) : List (Option ℚ) :=
  rollingMean period (rsiGains prices)

/-- `loss` of `calculate_rsi`: rolling mean of the negative-delta magnitudes. -/
def rsiLossAvg (prices : List ℚ) (period : ℕ) : List (Option ℚ) :=
  rollingMean period (rsiLosses prices)

/-- `calculate_rsi` of `indicators.py`: `rs = gain / loss`;
`rsi = 100 - 100 / (1 + rs)`, with IEEE NaN/infinity propagation. -/
def calculate_rsi (prices : List ℚ) (period : ℕ) : List F :=
  List.zipWith
    (fun g l =>
      let rs := (F.ofOpt g).div (F.ofOpt l)
      (F.val 100).sub ((F.val 100).div ((F.val 1).add rs)))
    (rsiGainAvg prices period) (rsiLossAvg prices period)

/-- Exponential smoothing scan: given the previous smoothed value `e0`,
produce `e0` followed by the smoothed values of the remaining inputs. -/
def emaFrom (a : ℚ) (e0 : ℚ) : List ℚ → List ℚ
  | [] => [e0]
  | x :: rest => e0 :: emaFrom a (a * x + (1 - a) * e0) rest

/-- pandas `Series.ewm(span=period, adjust=False).mean()` (used by
`calculate_ema`): smoothing factor `2/(period+1)`, seeded with the first
value. -/
def calculate_ema (prices : List ℚ) (period : ℕ) : List ℚ :=
  match prices with
  | [] => []
  | x :: rest => emaFrom (2 / ((period : ℚ) + 1)) x rest

/-- `calculate_macd` of `indicators.py`: returns
`(macd_line, signal_line, histogram)`. -/
def calculate_macd (prices : List ℚ) (fast slow sig : ℕ) : List ℚ × List ℚ × List ℚ :=
  let ema_fast := calculate_ema prices fast
  let ema_slow := calculate_ema prices slow
  let macd_line := List.zipWith (· - ·) ema_fast ema_slow
  let signal_line := calculate_ema macd_line sig
  let histogram := List.zipWith (· - ·) macd_line signal_line
  (macd_line, signal_line, histogram)

/-- `calculate_bollinger_bands` of `indicators.py`: middle band is the rolling
mean, `upper/lower = sma ± std_dev * std` where `std` is pandas rolling
(sample, `ddof = 1`) standard deviation.  Band values live in `ℝ` because of
the square root. -/
noncomputable def calculate_bollinger_bands (prices : List ℚ) (period : ℕ) (std_dev : ℚ) :
    List (Option ℚ) × List (Option ℝ) × List (Option ℝ) :=
  let sma := rollingMean period prices
  let std := (rollingVar period prices).map (Option.map fun v : ℚ => Real.sqrt (v : ℝ))
  (sma,
   List.zipWith (fun s d => s.bind fun sv => d.map fun dv => (sv : ℝ) + (std_dev : ℝ) * dv) sma std,
   List.zipWith (fun s d => s.bind fun sv => d.map fun dv => (sv : ℝ) - (std_dev : ℝ) * dv) sma std)

/-- Strategy parameter struct (`params` dict of `backtest_service.py`). -/
structure Params where
  rsi_oversold : ℚ
  rsi_overbought : ℚ
  macd_fast : ℕ
  macd_slow : ℕ
  macd_signal : ℕ
  bb_period : ℕ
  bb_std : ℚ
  ma_fast : ℕ
  ma_slow : ℕ

/-- `get_default_params` with the constants of `config.py`. -/
def get_default_params : Params :=
  { rsi_oversold := 30, rsi_overbought := 70
    macd_fast := 12, macd_slow := 26, macd_signal := 9
    bb_period := 20, bb_std := 2
    ma_fast := 10, ma_slow := 50 }

/-- The indicator columns attached to a bar, per strategy. -/
inductive IndRow where
  | rsiSma (rsi sma50 : ℚ)
  | macdRow (macd macd_sig macd_hist : ℚ)
  | bollRow (bb_mid : ℚ) (bb_upper bb_lower : ℝ)
  | maCross (ma_fast ma_slow : ℚ)

/-- One row of the indicator-augmented frame after `dropna()`. -/
structure SimRow where
  close : ℚ
  ind : IndRow

/-- Trade kind: the `type` strings `"BUY"`, `"SELL"`, `"SELL (End)"`. -/
inductive TradeKind where
  | buy
  | sell
  | sellEnd
deriving DecidableEq

/-- Mirrors `t['type'].startswith('SELL')` over the three kind strings that
occur (`"BUY"`, `"SELL"`, `"SELL (End)"`). -/
def TradeKind.isSellKind : TradeKind → Bool
  | .buy => false
  | .sell => true
  | .sellEnd => true

/-- A recorded trade (the date and the free-form `signal` diagnostic string
are not modelled). -/
structure Trade where
  kind : TradeKind
  price : ℚ
  shares : ℤ
  profit : Option ℚ
  profitPct : Option ℚ
deriving DecidableEq

/-- One equity-curve entry (the date string is not modelled). -/
structure EquityPoint where
  equity : ℚ
  price : ℚ
deriving DecidableEq

/-- The mutable locals of the `simulate_trades` loop. -/
structure SimState where
  capital : ℚ
  shares : ℤ
  position_open : Bool
  entry_price : ℚ
  trades : List Trade
  equity_curve : List EquityPoint

/-- Loop-entry state of `simulate_trades`. -/
def initState (initial_capital : ℚ) : SimState :=
  { capital := initial_capital, shares := 0, position_open := false
    entry_price := 0, trades := [], equity_curve := [] }

/-- `generate_signals` of `backtest_service.py` (the diagnostic string is
dropped): returns `(buy_signal, sell_signal)` for the bar at `idx` of the
trimmed frame. -/
noncomputable def generate_signals (rows : List SimRow) (idx : ℕ) (strategy : String)
    (params : Params) : Bool × Bool :=
  match rows.get? idx with
  | none => (false, false)
  | some row =>
    if strategy = "rsi_sma" then
      match row.ind with
      | .rsiSma rsi sma50 =>
        (decide (row.close > sma50) && decide (rsi < params.rsi_oversold),
         decide (rsi > params.rsi_overbought) || decide (row.close < sma50))
      | _ => (false, false)
    else if strategy = "macd" then
      match row.ind with
      | .macdRow _ _ hist_val =>
        if 0 < idx then
          match rows.get? (idx - 1) with
          | some prev =>
            match prev.ind with
            | .macdRow _ _ prev_hist =>
              (decide (prev_hist < 0) && decide (0 < hist_val),
               decide (0 < prev_hist) && decide (hist_val < 0))
            | _ => (false, false)
          | none => (false, false)
        else (false, false)
      | _ => (false, false)
    else if strategy = "bollinger" then
      match row.ind with
      | .bollRow mid upper lower =>
        (decide ((row.close : ℝ) ≤ lower),
         decide (upper ≤ (row.close : ℝ)) || decide (row.close < mid))
      | _ => (false, false)
    else if strategy = "ma_crossover" then
      match row.ind with
      | .maCross ma_fast ma_slow =>
        if 0 < idx then
          match rows.get? (idx - 1) with
          | some prev =>
            match prev.ind with
            | .maCross prev_fast prev_slow =>
              (decide (prev_fast ≤ prev_slow) && decide (ma_slow < ma_fast),
               decide (prev_slow ≤ prev_fast) && decide (ma_fast < ma_slow))
            | _ => (false, false)
          | none => (false, false)
        else (false, false)
      | _ => (false, false)
    else (false, false)

/-- One iteration of the `simulate_trades` loop at bar `i`: record the
mark-to-market equity point, then execute at most one of BUY / SELL. -/
noncomputable def simStep (rows : List SimRow) (strategy : String) (params : Params)
    (s : SimState) (i : ℕ) : SimState :=
  match rows.get? i with
  | none => s
  | some row =>
    let current_price := row.close
    let current_equity := s.capital + (s.shares : ℚ) * current_price
    let curve := s.equity_curve ++ [⟨pyRound 2 current_equity, pyRound 2 current_price⟩]
    let sigs := generate_signals rows i strategy params
    if !s.position_open && sigs.1 then
      let shares := pyInt (s.capital * 0.95 / current_price)
      if 0 < shares then
        { capital := s.capital - (shares : ℚ) * current_price
          shares := shares, position_open := true, entry_price := current_price
          trades := s.trades ++ [⟨.buy, pyRound 2 current_price, shares, none, none⟩]
          equity_curve := curve }
      else { s with shares := shares, equity_curve := curve }
    else if s.position_open && sigs.2 then
      let exit_price := current_price
      let profit := (exit_price - s.entry_price) * (s.shares : ℚ)
      let profit_pct := (exit_price - s.entry_price) / s.entry_price * 100
      { capital := s.capital + (s.shares : ℚ) * exit_price
        shares := 0, position_open := false, entry_price := 0
        trades := s.trades ++
          [⟨.sell, pyRound 2 current_price, s.shares, some (pyRound 2 profit),
            some (pyRound 2 profit_pct)⟩]
        equity_curve := curve }
    else { s with equity_curve := curve }

/-- State of the `simulate_trades` loop after processing the first `k` bars. -/
noncomputable def simSteps (rows : List SimRow) (strategy : String) (params : Params)
    (initial_capital : ℚ) : ℕ → SimState
  | 0 => initState initial_capital
  | k + 1 => simStep rows strategy params (simSteps rows strategy params initial_capital k) k

/-- `simulate_trades`: run the loop over every bar, then, if still long,
forcibly liquidate at the final close (`"SELL (End)"`). -/
noncomputable def simulate_trades (rows : List SimRow) (strategy : String) (params : Params)
    (initial_capital : ℚ) : List Trade × List EquityPoint :=
  let s := simSteps rows strategy params initial_capital rows.length
  if s.position_open then
    match rows.getLast? with
    | some lastRow =>
      let final_price := lastRow.close
      let profit := (final_price - s.entry_price) * (s.shares : ℚ)
      let profit_pct := (final_price - s.entry_price) / s.entry_price * 100
      (s.trades ++
        [⟨.sellEnd, pyRound 2 final_price, s.shares, some (pyRound 2 profit),
          some (pyRound 2 profit_pct)⟩], s.equity_curve)
    | none => (s.trades, s.equity_curve)
  else (s.trades, s.equity_curve)

/-- The backtest summary dict (the `startDate`/`endDate` strings are not
modelled). -/
structure Metrics where
  initialCapital : ℚ
  finalCapital : ℚ
  totalReturn : ℚ
  buyHoldReturn : ℚ
  outperformance : ℚ
  totalTrades : ℕ
  winningTrades : ℕ
  losingTrades : ℕ
  winRate : ℚ
  avgWin : ℚ
  avgLoss : ℚ
  maxDrawdown : ℚ
deriving DecidableEq

/-- The running-peak drawdown loop of `calculate_metrics`. -/
def max_drawdown_calc (equity_values : List ℚ) (initial_capital : ℚ) : ℚ :=
  (equity_values.foldl
    (fun pm eq =>
      let peak := if pm.1 < eq then eq else pm.1
      let drawdown := (peak - eq) / peak * 100
      (peak, if pm.2 < drawdown then drawdown else pm.2))
    (equity_values.headD initial_capital, 0)).2

/-- `np.mean` on a nonempty list. -/
def npMean (xs : List ℚ) : ℚ := xs.sum / xs.length

/-- `calculate_metrics` of `backtest_service.py`.  `rows` is the trimmed frame
(used for the buy-and-hold comparison; it is nonempty whenever the
orchestrator calls this). -/
def calculate_metrics (trades : List Trade) (equity_curve : List EquityPoint)
    (initial_capital : ℚ) (rows : List SimRow) : Metrics :=
  let final_capital := ((equity_curve.getLast?).map EquityPoint.equity).getD initial_capital
  let total_return := (final_capital - initial_capital) / initial_capital * 100
  let sell_trades := trades.filter fun t => t.kind.isSellKind
  let winning_trades := sell_trades.filter fun t => 0 < t.profit.getD 0
  let losing_trades := sell_trades.filter fun t => t.profit.getD 0 ≤ 0
  let win_rate := if sell_trades ≠ [] then (winning_trades.length : ℚ) / sell_trades.length * 100 else 0
  let avg_win := if winning_trades ≠ [] then npMean (winning_trades.map fun t => t.profit.getD 0) else 0
  let avg_loss := if losing_trades ≠ [] then npMean (losing_trades.map fun t => t.profit.getD 0) else 0
  let max_drawdown := max_drawdown_calc (equity_curve.map EquityPoint.equity) initial_capital
  let start_price := ((rows.head?).map SimRow.close).getD 0
  let end_price := ((rows.getLast?).map SimRow.close).getD 0
  let buy_hold_return := (end_price - start_price) / start_price * 100
  { initialCapital := initial_capital
    finalCapital := pyRound 2 final_capital
    totalReturn := pyRound 2 total_return
    buyHoldReturn := pyRound 2 buy_hold_return
    outperformance := pyRound 2 (total_return - buy_hold_return)
    totalTrades := sell_trades.length
    winningTrades := winning_trades.length
    losingTrades := losing_trades.length
    winRate := pyRound 1 win_rate
    avgWin := pyRound 2 avg_win
    avgLoss := pyRound 2 avg_loss
    maxDrawdown := pyRound 2 max_drawdown }

/-- Zip four lists (used to build the augmented frame). -/
def zipWith3 (f : α → β → γ → δ) : List α → List β → List γ → List δ
  | a :: as, b :: bs, c :: cs => f a b c :: zipWith3 f as bs cs
  | _, _, _ => []

/-- Zip four lists (used to build the augmented frame). -/
def zipWith4 (f : α → β → γ → δ → ε) : List α → List β → List γ → List δ → List ε
  | a :: as, b :: bs, c :: cs, d :: ds => f a b c d :: zipWith4 f as bs cs ds
  | _, _, _, _ => []

/-- The indicator-attachment step of `run_backtest`: `none` for an unknown
strategy id; otherwise one entry per input bar, `none` (a row `dropna()` will
remove) where any required indicator is NaN. -/
noncomputable def augmentRows (closes : List ℚ) (strategy : String) (params : Params) :
    Option (List (Option SimRow)) :=
  if strategy = "rsi_sma" then
    let sma50 := rollingMean 50 closes
    let rsi := calculate_rsi closes 14
    some (zipWith3
      (fun c s r => match s, r with
        | some sv, F.val rv => some ⟨c, .rsiSma rv sv⟩
        | _, _ => none)
      closes sma50 rsi)
  else if strategy = "macd" then
    let m := calculate_macd closes params.macd_fast params.macd_slow params.macd_signal
    some (zipWith4 (fun c ml sl hl => some ⟨c, .macdRow ml sl hl⟩) closes m.1 m.2.1 m.2.2)
  else if strategy = "bollinger" then
    let b := calculate_bollinger_bands closes params.bb_period params.bb_std
    some (zipWith4
      (fun c mid up lo => match mid, up, lo with
        | some mv, some uv, some lv => some ⟨c, .bollRow mv uv lv⟩
        | _, _, _ => none)
      closes b.1 b.2.1 b.2.2)
  else if strategy = "ma_crossover" then
    let fastL := rollingMean params.ma_fast closes
    let slowL := rollingMean params.ma_slow closes
    some (zipWith3
      (fun c f s => match f, s with
        | some fv, some sv => some ⟨c, .maCross fv sv⟩
        | _, _ => none)
      closes fastL slowL)
  else none

/-- The trimmed frame: indicator-augmented rows after `dropna()`. -/
noncomputable def trimmedRows (closes : List ℚ) (strategy : String) (params : Params) :
    List SimRow :=
  ((augmentRows closes strategy params).getD []).filterMap id

/-- Python `lst[-n:]`. -/
def lastN (n : ℕ) (xs : List α) : List α := xs.drop (xs.length - n)

/-- Python `lst[::k]` for `k ≥ 1`: every `k`-th element starting at index 0. -/
def sliceEvery (k : ℕ) : List α → List α
  | [] => []
  | x :: rest => x :: sliceEvery k (rest.drop (k - 1))
termination_by xs => xs.length
decreasing_by simp only [List.length_drop, List.length_cons]; omega

/-- Result of `run_backtest`: either `{"success": False, "error": ...}` (which
carries no metrics, trades or equity curve) or the success payload (the
`symbol`/`period`/`strategyName` labels are not modelled). -/
inductive BacktestResult where
  | failure (error : String)
  | success (summary : Metrics) (trades : List Trade) (equityCurve : List EquityPoint)

/-- Whether the result is a success payload. -/
def BacktestResult.isSuccess : BacktestResult → Bool
  | .success _ _ _ => true
  | .failure _ => false

/-- The metrics summary of a success result. -/
def BacktestResult.summaryOf : BacktestResult → Option Metrics
  | .success m _ _ => some m
  | .failure _ => none

/-- The (truncated) trade list of a success result. -/
def BacktestResult.tradesOf : BacktestResult → Option (List Trade)
  | .success _ t _ => some t
  | .failure _ => none

/-- The (down-sampled) equity curve of a success result. -/
def BacktestResult.equityCurveOf : BacktestResult → Option (List EquityPoint)
  | .success _ _ e => some e
  | .failure _ => none

/-- `run_backtest` of `backtest_service.py` (the market-data fetch is outside
the core: `closes` is the fetched series).  Checks, in source order: at least
60 raw bars; known strategy id; at least 10 bars after indicator warm-up
trimming; then simulates, computes metrics, and shapes the payload (last 20
trades, equity curve sampled with stride `max 1 (len/50)`). -/
noncomputable def run_backtest (closes : List ℚ) (strategy : String) (initial_capital : ℚ)
    (params : Params) : BacktestResult :=
  if closes.length < 60 then .failure "Not enough historical data (need 60+ days)"
  else
    match augmentRows closes strategy params with
    | none => .failure ("Unknown strategy: " ++ strategy)
    | some optRows =>
      let rows := optRows.filterMap id
      if rows.length < 10 then .failure "Not enough data after indicator calculation"
      else
        let te := simulate_trades rows strategy params initial_capital
        let metrics := calculate_metrics te.1 te.2 initial_capital rows
        .success metrics (lastN 20 te.1) (sliceEvery (max 1 (te.2.length / 50)) te.2)

/-- The four recognized strategy ids. -/
def knownStrategies : List String := ["rsi_sma", "macd", "bollinger", "ma_crossover"]

/-- Modelled from the spec: the middle Bollinger band per the spec's words,
`middle = SMA(period)` at an index whose trailing window is full. -/
def bbMidSpec (prices : List ℚ) (p i : ℕ) : ℚ :=
  ((prices.drop (i + 1 - p)).take p).sum / p

/-- Modelled from the spec: the rolling population variance (divisor `p`) over
the trailing window, per the spec's words for BollingerBands. -/
def popVarSpec (prices : List ℚ) (p i : ℕ) : ℚ :=
  (((prices.drop (i + 1 - p)).take p).map
    (fun x => (x - ((prices.drop (i + 1 - p)).take p).sum / p) ^ 2)).sum / (p : ℚ)

/-- Modelled from the spec: the rolling population standard deviation (divisor
`p`) over the trailing window, per the spec's words for BollingerBands. -/
noncomputable def popStdSpec (prices : List ℚ) (p i : ℕ) : ℝ :=
  Real.sqrt ((popVarSpec prices p i : ℚ) : ℝ)

/-- Modelled from the spec: `upper = middle + multiplier × population std`. -/
noncomputable def bbUpperSpec (prices : List ℚ) (p : ℕ) (m : ℚ) (i : ℕ) : ℝ :=
  (bbMidSpec prices p i : ℝ) + (m : ℝ) * popStdSpec prices p i

/-- The rolling sample variance (divisor `p - 1`) over the trailing window,
written from the spec's formula shape but with the corrected divisor. -/
def sampleVarSpec (prices : List ℚ) (p i : ℕ) : ℚ :=
  (((prices.drop (i + 1 - p)).take p).map
    (fun x => (x - ((prices.drop (i + 1 - p)).take p).sum / p) ^ 2)).sum / ((p : ℚ) - 1)

/-- The rolling sample standard deviation (divisor `p - 1`) over the trailing
window, written from the spec's formula shape but with the corrected divisor. -/
noncomputable def sampleStdSpec (prices : List ℚ) (p i : ℕ) : ℝ :=
  Real.sqrt ((sampleVarSpec prices p i : ℚ) : ℝ)

/-- Number of trades of a given kind in a trade list. -/
def countKind (k : TradeKind) (ts : List Trade) : ℕ :=
  (ts.filter fun t => t.kind = k).length

/-- A one-bar trimmed frame whose rsi_sma indicators trigger an immediate BUY
(close above SMA50, RSI below the oversold threshold); used as a concrete
input for instantiating universally quantified simulator theorems. -/
def oneBuyRow : List SimRow := [⟨2, .rsiSma 10 1⟩]

/-! ## List access helper lemmas -/

theorem rangeMap_get? (f : ℕ → α) (n i : ℕ) :
    ((List.range n).map f).get? i = if i < n then some (f i) else none := by
  rw [List.get?_eq_getElem?, List.getElem?_map]
  by_cases h : i < n
  · rw [List.getElem?_range h, if_pos h]
    rfl
  · rw [if_neg h, List.getElem?_eq_none (by simpa using Nat.le_of_not_lt h)]
    rfl

theorem zipWith3_get? (f : α → β → γ → δ) (as : List α) (bs : List β) (cs : List γ) (i : ℕ) :
    (zipWith3 f as bs cs).get? i =
      (as.get? i).bind fun a => (bs.get? i).bind fun b => (cs.get? i).map fun c => f a b c := by
  induction as generalizing bs cs i with
  | nil => simp [zipWith3]
  | cons a as ih =>
    cases bs with
    | nil => simp [zipWith3]
    | cons b bs =>
      cases cs with
      | nil => simp [zipWith3]
      | cons c cs =>
        cases i with
        | zero => simp [zipWith3]
        | succ i => simpa [zipWith3] using ih bs cs i

theorem zipWith4_get? (f : α → β → γ → δ → ε) (as : List α) (bs : List β) (cs : List γ)
    (ds : List δ) (i : ℕ) :
    (zipWith4 f as bs cs ds).get? i =
      (as.get? i).bind fun a => (bs.get? i).bind fun b => (cs.get? i).bind fun c =>
        (ds.get? i).map fun d => f a b c d := by
  induction as generalizing bs cs ds i with
  | nil => simp [zipWith4]
  | cons a as ih =>
    cases bs with
    | nil => simp [zipWith4]
    | cons b bs =>
      cases cs with
      | nil => simp [zipWith4]
      | cons c cs =>
        cases ds with
        | nil => simp [zipWith4]
        | cons d ds =>
          cases i with
          | zero => simp [zipWith4]
          | succ i => simpa [zipWith4] using ih bs cs ds i

theorem replicate_get? (n : ℕ) (a : α) (i : ℕ) :
    (List.replicate n a).get? i = if i < n then some a else none := by
  simp [List.get?_eq_getElem?, List.getElem?_replicate]

/-! ## Indicators on a constant (flat) price series -/

theorem windowAt_replicate_full (n p i : ℕ) (c : ℚ) (hi : i < n) (hp : p ≤ i + 1) :
    windowAt (List.replicate n c) p i = List.replicate p c := by
  unfold windowAt
  rw [List.take_replicate, List.drop_replicate]
  congr 1
  omega

theorem sum_replicate_q (p : ℕ) (c : ℚ) : (List.replicate p c).sum = (p : ℚ) * c := by
  rw [List.sum_replicate, nsmul_eq_mul]

theorem rollingMean_replicate (p n : ℕ) (c : ℚ) (hp : 1 ≤ p) (i : ℕ) :
    (rollingMean p (List.replicate n c)).get? i =
      if i < n then some (if i + 1 < p then none else some c) else none := by
  unfold rollingMean
  rw [List.length_replicate, rangeMap_get?]
  by_cases hi : i < n
  · simp only [if_pos hi]
    by_cases hw : i + 1 < p
    · simp [hw]
    · rw [if_neg hw, if_neg hw, windowAt_replicate_full n p i c hi (by omega), sum_replicate_q]
      have hp0 : (p : ℚ) ≠ 0 := by exact_mod_cast (by omega : p ≠ 0)
      rw [mul_div_cancel_left₀ c hp0]
  · simp [hi]

theorem rollingVar_replicate (p n : ℕ) (c : ℚ) (i : ℕ) :
    (rollingVar p (List.replicate n c)).get? i =
      if i < n then some (if i + 1 < p ∨ p < 2 then none else some 0) else none := by
  unfold rollingVar
  rw [List.length_replicate, rangeMap_get?]
  by_cases hi : i < n
  · simp only [if_pos hi]
    by_cases hw : i + 1 < p ∨ p < 2
    · simp [hw]
    · rw [if_neg hw, if_neg hw, windowAt_replicate_full n p i c hi (by omega)]
      have hp0 : (p : ℚ) ≠ 0 := by exact_mod_cast (by omega : p ≠ 0)
      rw [List.map_replicate, sum_replicate_q, sum_replicate_q,
        mul_div_cancel_left₀ c hp0, sub_self]
      norm_num
  · simp [hi]

theorem zipWith_get2 (f : α → β → γ) (as : List α) (bs : List β) (i : ℕ) :
    (List.zipWith f as bs).get? i =
      (as.get? i).bind fun a => (bs.get? i).map fun b => f a b := by
  induction as generalizing bs i with
  | nil => simp
  | cons a as ih =>
    cases bs with
    | nil => simp
    | cons b bs =>
      cases i with
      | zero => simp
      | succ i => simpa using ih bs i

theorem emaFrom_const (a c : ℚ) (m : ℕ) :
    emaFrom a c (List.replicate m c) = List.replicate (m + 1) c := by
  induction m with
  | zero => simp [emaFrom]
  | succ m ih =>
    rw [List.replicate_succ, emaFrom]
    have h : a * c + (1 - a) * c = c := by ring
    rw [h, ih]
    simp [List.replicate_succ]

theorem calculate_ema_replicate (n p : ℕ) (c : ℚ) :
    calculate_ema (List.replicate n c) p = List.replicate n c := by
  cases n with
  | zero => rfl
  | succ n =>
    rw [List.replicate_succ]
    show emaFrom (2 / ((p : ℚ) + 1)) c (List.replicate n c) = _
    rw [emaFrom_const, List.replicate_succ]

theorem zipWith_replicate_both (f : α → β → γ) (n : ℕ) (a : α) (b : β) :
    List.zipWith f (List.replicate n a) (List.replicate n b) = List.replicate n (f a b) := by
  induction n with
  | zero => rfl
  | succ n ih => simp [List.replicate_succ, ih]

theorem calculate_macd_replicate (n fast slow sig : ℕ) (c : ℚ) :
    calculate_macd (List.replicate n c) fast slow sig =
      (List.replicate n 0, List.replicate n 0, List.replicate n 0) := by
  simp only [calculate_macd, calculate_ema_replicate, zipWith_replicate_both, sub_self]

theorem zipWith_cons_replicate (f : ℚ → ℚ → F) (n : ℕ) (c : ℚ) :
    List.zipWith f (c :: List.replicate n c) (List.replicate n c) =
      List.replicate n (f c c) := by
  induction n with
  | zero => rfl
  | succ n ih =>
    rw [List.replicate_succ, List.replicate_succ, List.zipWith_cons_cons, ih]

theorem diffF_replicate (n : ℕ) (c : ℚ) :
    diffF (List.replicate (n + 1) c) = F.nan :: List.replicate n (F.val 0) := by
  rw [List.replicate_succ, diffF, zipWith_cons_replicate, sub_self]

theorem rsiGains_replicate (n : ℕ) (c : ℚ) :
    rsiGains (List.replicate n c) = List.replicate n 0 := by
  cases n with
  | zero => rfl
  | succ n =>
    rw [rsiGains, diffF_replicate]
    simp [List.map_replicate, List.replicate_succ]

theorem rsiLosses_replicate (n : ℕ) (c : ℚ) :
    rsiLosses (List.replicate n c) = List.replicate n 0 := by
  cases n with
  | zero => rfl
  | succ n =>
    rw [rsiLosses, diffF_replicate]
    simp [List.map_replicate, List.replicate_succ]

theorem calculate_rsi_replicate (n : ℕ) (c : ℚ) (i : ℕ) :
    (calculate_rsi (List.replicate n c) 14).get? i = if i < n then some F.nan else none := by
  unfold calculate_rsi
  rw [zipWith_get2]
  unfold rsiGainAvg rsiLossAvg
  rw [rsiGains_replicate, rsiLosses_replicate, rollingMean_replicate 14 n 0 (by omega) i]
  by_cases hi : i < n
  · by_cases hw : i + 1 < 14 <;> simp [hi, hw, F.ofOpt, F.div, F.add, F.sub]
  · simp [hi]

theorem zipWith4_replicate (f : α → β → γ → δ → ε) (n : ℕ) (a : α) (b : β) (c : γ) (d : δ) :
    zipWith4 f (List.replicate n a) (List.replicate n b) (List.replicate n c)
      (List.replicate n d) = List.replicate n (f a b c d) := by
  induction n with
  | zero => rfl
  | succ n ih => simp [List.replicate_succ, zipWith4, ih]

theorem filterMap_id_replicate_none (n : ℕ) :
    (List.replicate n (none : Option α)).filterMap id = [] := by
  induction n with
  | zero => rfl
  | succ n ih => simp [List.replicate_succ, ih]

theorem filterMap_id_replicate_some (n : ℕ) (r : α) :
    (List.replicate n (some r)).filterMap id = List.replicate n r := by
  induction n with
  | zero => rfl
  | succ n ih => simp [List.replicate_succ, ih]

theorem filterMap_rangeMap_if (n p : ℕ) (r : α) :
    (((List.range n).map fun i => if i + 1 < p then none else some r).filterMap id) =
      List.replicate (n - (p - 1)) r := by
  induction n with
  | zero => simp
  | succ n ih =>
    rw [List.range_succ, List.map_append, List.filterMap_append, ih]
    by_cases h : n + 1 < p
    · have hlen : n + 1 - (p - 1) = n - (p - 1) := by omega
      simp [h, hlen]
    · have hlen : n + 1 - (p - 1) = (n - (p - 1)) + 1 := by omega
      simp only [List.map_cons, List.map_nil, if_neg h, List.filterMap_cons_some,
        List.filterMap_nil, hlen, List.replicate_succ']
      rfl

theorem augment_macd_replicate (n : ℕ) (c : ℚ) (params : Params) :
    augmentRows (List.replicate n c) "macd" params =
      some (List.replicate n (some ⟨c, .macdRow 0 0 0⟩)) := by
  simp [augmentRows, calculate_macd_replicate, zipWith4_replicate]

theorem augment_rsi_replicate (n : ℕ) (c : ℚ) (params : Params) :
    augmentRows (List.replicate n c) "rsi_sma" params =
      some (List.replicate n (none : Option SimRow)) := by
  simp only [augmentRows, if_pos rfl]
  refine congrArg some (List.ext_get? fun i => ?_)
  rw [zipWith3_get?, replicate_get?, replicate_get?, calculate_rsi_replicate,
    rollingMean_replicate 50 n c (by omega) i]
  by_cases hi : i < n
  · simp [hi]
  · simp [hi]

theorem augment_bollinger_replicate (n : ℕ) (c : ℚ) (params : Params)
    (hp : 2 ≤ params.bb_period) :
    augmentRows (List.replicate n c) "bollinger" params =
      some ((List.range n).map fun i =>
        if i + 1 < params.bb_period then none
        else some ⟨c, .bollRow c ((c : ℚ) : ℝ) ((c : ℚ) : ℝ)⟩) := by
  have hne1 : ("bollinger" : String) ≠ "rsi_sma" := by decide
  have hne2 : ("bollinger" : String) ≠ "macd" := by decide
  simp only [augmentRows, if_neg hne1, if_neg hne2, if_pos rfl]
  refine congrArg some (List.ext_get? fun i => ?_)
  unfold calculate_bollinger_bands
  rw [zipWith4_get?, replicate_get?, rangeMap_get?, zipWith_get2, zipWith_get2,
    List.get?_map, rollingMean_replicate params.bb_period n c (by omega) i,
    rollingVar_replicate params.bb_period n c i]
  by_cases hi : i < n
  · by_cases hw : i + 1 < params.bb_period
    · simp [hi, hw]
    · have hw2 : ¬(i + 1 < params.bb_period ∨ params.bb_period < 2) := by omega
      have h2 : ¬params.bb_period < 2 := by omega
      simp [hi, hw, hw2, h2, Real.sqrt_zero]
  · simp [hi]

theorem augment_ma_replicate (n : ℕ) (c : ℚ) (params : Params)
    (hf : 1 ≤ params.ma_fast) (hs : 1 ≤ params.ma_slow) :
    augmentRows (List.replicate n c) "ma_crossover" params =
      some ((List.range n).map fun i =>
        if i + 1 < max params.ma_fast params.ma_slow then none
        else some ⟨c, .maCross c c⟩) := by
  have hne1 : ("ma_crossover" : String) ≠ "rsi_sma" := by decide
  have hne2 : ("ma_crossover" : String) ≠ "macd" := by decide
  have hne3 : ("ma_crossover" : String) ≠ "bollinger" := by decide
  simp only [augmentRows, if_neg hne1, if_neg hne2, if_neg hne3, if_pos rfl]
  refine congrArg some (List.ext_get? fun i => ?_)
  rw [zipWith3_get?, replicate_get?, rangeMap_get?,
    rollingMean_replicate params.ma_fast n c hf i,
    rollingMean_replicate params.ma_slow n c hs i]
  by_cases hi : i < n
  · by_cases hwf : i + 1 < params.ma_fast
    · have : i + 1 < max params.ma_fast params.ma_slow := by omega
      simp [hi, hwf, this]
    · by_cases hws : i + 1 < params.ma_slow
      · have : i + 1 < max params.ma_fast params.ma_slow := by omega
        simp [hi, hwf, hws, this]
      · have : ¬(i + 1 < max params.ma_fast params.ma_slow) := by omega
        simp [hi, hwf, hws, this]
  · simp [hi]

theorem trimmed_rsi_replicate (n : ℕ) (c : ℚ) (params : Params) :
    trimmedRows (List.replicate n c) "rsi_sma" params = [] := by
  unfold trimmedRows
  rw [augment_rsi_replicate]
  exact filterMap_id_replicate_none n

theorem trimmed_macd_replicate (n : ℕ) (c : ℚ) (params : Params) :
    trimmedRows (List.replicate n c) "macd" params =
      List.replicate n ⟨c, .macdRow 0 0 0⟩ := by
  unfold trimmedRows
  rw [augment_macd_replicate]
  exact filterMap_id_replicate_some n _

theorem trimmed_bollinger_replicate (n : ℕ) (c : ℚ) (params : Params)
    (hp : 2 ≤ params.bb_period) :
    trimmedRows (List.replicate n c) "bollinger" params =
      List.replicate (n - (params.bb_period - 1)) ⟨c, .bollRow c ((c : ℚ) : ℝ) ((c : ℚ) : ℝ)⟩ := by
  unfold trimmedRows
  rw [augment_bollinger_replicate n c params hp]
  exact filterMap_rangeMap_if n params.bb_period _

theorem trimmed_ma_replicate (n : ℕ) (c : ℚ) (params : Params)
    (hf : 1 ≤ params.ma_fast) (hs : 1 ≤ params.ma_slow) :
    trimmedRows (List.replicate n c) "ma_crossover" params =
      List.replicate (n - (max params.ma_fast params.ma_slow - 1)) ⟨c, .maCross c c⟩ := by
  unfold trimmedRows
  rw [augment_ma_replicate n c params hf hs]
  exact filterMap_rangeMap_if n (max params.ma_fast params.ma_slow) _

/-! ## Simulation lemmas -/

theorem get?_some_lt {rows : List SimRow} {k : ℕ} {row : SimRow}
    (hrow : rows.get? k = some row) : k < rows.length := by
  by_contra h
  rw [List.get?_eq_none.mpr (Nat.le_of_not_lt h)] at hrow
  exact Option.noConfusion hrow

theorem simSteps_no_signal (rows : List SimRow) (strategy : String) (params : Params) (K : ℚ)
    (hsig : ∀ i, i < rows.length → generate_signals rows i strategy params = (false, false)) :
    ∀ k, simSteps rows strategy params K k =
      { capital := K, shares := 0, position_open := false, entry_price := 0, trades := []
        equity_curve := (rows.take k).map fun r => ⟨pyRound 2 K, pyRound 2 r.close⟩ } := by
  intro k
  induction k with
  | zero => simp [simSteps, initState]
  | succ k ih =>
    simp only [simSteps]
    rw [ih]
    unfold simStep
    cases hrow : rows.get? k with
    | none =>
      rw [List.get?_eq_getElem?] at hrow
      simp [List.take_succ, hrow]
    | some row =>
      rw [hsig k (get?_some_lt hrow)]
      rw [List.get?_eq_getElem?] at hrow
      simp [List.take_succ, hrow]

theorem pyInt_nonneg {x : ℚ} (hx : 0 ≤ x) : 0 ≤ pyInt x := by
  unfold pyInt
  rw [if_neg (not_lt.mpr hx)]
  exact Int.floor_nonneg.mpr hx

theorem pyInt_cast_le {x : ℚ} (hx : 0 ≤ x) : (pyInt x : ℚ) ≤ x := by
  unfold pyInt
  rw [if_neg (not_lt.mpr hx)]
  exact Int.floor_le x

theorem buy_deduction_le {cap price : ℚ} (hcap : 0 ≤ cap) (hprice : 0 < price) :
    (pyInt (cap * 0.95 / price) : ℚ) * price ≤ 0.95 * cap := by
  have hdiv : (0 : ℚ) ≤ cap * 0.95 / price :=
    div_nonneg (mul_nonneg hcap (by norm_num)) hprice.le
  have h1 : (pyInt (cap * 0.95 / price) : ℚ) ≤ cap * 0.95 / price := pyInt_cast_le hdiv
  calc (pyInt (cap * 0.95 / price) : ℚ) * price ≤ cap * 0.95 / price * price := by
        exact mul_le_mul_of_nonneg_right h1 (le_of_lt hprice)
    _ = 0.95 * cap := by field_simp; ring

theorem simSteps_cash_nonneg (rows : List SimRow) (strategy : String) (params : Params) (K : ℚ)
    (hpos : ∀ r ∈ rows, 0 < r.close) (hK : 0 ≤ K) :
    ∀ k, 0 ≤ (simSteps rows strategy params K k).capital ∧
      0 ≤ (simSteps rows strategy params K k).shares := by
  intro k
  induction k with
  | zero => exact ⟨hK, le_refl 0⟩
  | succ k ih =>
    obtain ⟨ihc, ihs⟩ := ih
    show 0 ≤ (simStep rows strategy params (simSteps rows strategy params K k) k).capital ∧
      0 ≤ (simStep rows strategy params (simSteps rows strategy params K k) k).shares
    set s := simSteps rows strategy params K k with hsdef
    unfold simStep
    cases hrow : rows.get? k with
    | none => exact ⟨ihc, ihs⟩
    | some row =>
      have hprice : 0 < row.close := hpos row (List.get?_mem hrow)
      dsimp only
      by_cases hb : (!s.position_open && (generate_signals rows k strategy params).1) = true
      · rw [if_pos hb]
        by_cases hq : 0 < pyInt (s.capital * 0.95 / row.close)
        · rw [if_pos hq]
          constructor
          · dsimp only
            have hded := buy_deduction_le ihc hprice
            nlinarith
          · exact le_of_lt hq
        · rw [if_neg hq]
          exact ⟨ihc, pyInt_nonneg (div_nonneg (mul_nonneg ihc (by norm_num)) hprice.le)⟩
      · rw [if_neg hb]
        by_cases hsell : (s.position_open && (generate_signals rows k strategy params).2) = true
        · rw [if_pos hsell]
          constructor
          · dsimp only
            have h1 : (0 : ℚ) ≤ (s.shares : ℚ) := by exact_mod_cast ihs
            nlinarith
          · exact le_refl 0
        · rw [if_neg hsell]
          exact ⟨ihc, ihs⟩

theorem simSteps_nil (strategy : String) (params : Params) (K : ℚ) :
    ∀ k, simSteps [] strategy params K k = initState K := by
  intro k
  induction k with
  | zero => rfl
  | succ k ih =>
    have hstep : simSteps [] strategy params K (k + 1) =
        simStep [] strategy params (simSteps [] strategy params K k) k := rfl
    rw [hstep, ih]
    rfl

theorem simSteps_count (rows : List SimRow) (strategy : String) (params : Params) (K : ℚ) :
    ∀ k, countKind .buy (simSteps rows strategy params K k).trades =
        countKind .sell (simSteps rows strategy params K k).trades +
          (if (simSteps rows strategy params K k).position_open then 1 else 0) ∧
      countKind .sellEnd (simSteps rows strategy params K k).trades = 0 := by
  intro k
  induction k with
  | zero => simp [simSteps, initState, countKind]
  | succ k ih =>
    obtain ⟨ih1, ih2⟩ := ih
    have hstep : simSteps rows strategy params K (k + 1) =
        simStep rows strategy params (simSteps rows strategy params K k) k := rfl
    rw [hstep]
    set s := simSteps rows strategy params K k with hsdef
    unfold simStep
    cases hrow : rows.get? k with
    | none => exact ⟨ih1, ih2⟩
    | some row =>
      dsimp only
      by_cases hb : (!s.position_open && (generate_signals rows k strategy params).1) = true
      · have hopen : s.position_open = false := by
          cases h : s.position_open
          · rfl
          · rw [h] at hb
            simp at hb
        rw [if_pos hb]
        rw [hopen] at ih1
        by_cases hq : 0 < pyInt (s.capital * 0.95 / row.close)
        · rw [if_pos hq]
          constructor
          · simp only [countKind, List.filter_append] at ih1 ⊢
            simp [countKind, ih1]
          · simp only [countKind, List.filter_append] at ih2 ⊢
            simp [countKind, ih2]
        · rw [if_neg hq]
          simpa [hopen] using ⟨ih1, ih2⟩
      · rw [if_neg hb]
        by_cases hsell : (s.position_open && (generate_signals rows k strategy params).2) = true
        · have hopen : s.position_open = true := by
            cases h : s.position_open
            · rw [h] at hsell
              simp at hsell
            · rfl
          rw [if_pos hsell]
          rw [hopen] at ih1
          constructor
          · simp only [countKind, List.filter_append] at ih1 ⊢
            simp [countKind, ih1]
          · simp only [countKind, List.filter_append] at ih2 ⊢
            simp [countKind, ih2]
        · rw [if_neg hsell]
          exact ⟨ih1, ih2⟩

theorem simSteps_flat (rows : List SimRow) (strategy : String) (params : Params) (K c : ℚ)
    (hc : 0 < c) (hK : 0 ≤ K) (hflat : ∀ r ∈ rows, r.close = c) :
    ∀ k, 0 ≤ (simSteps rows strategy params K k).capital ∧
      0 ≤ (simSteps rows strategy params K k).shares ∧
      ((simSteps rows strategy params K k).position_open = false →
        (simSteps rows strategy params K k).shares = 0) ∧
      (simSteps rows strategy params K k).capital +
        ((simSteps rows strategy params K k).shares : ℚ) * c = K ∧
      (simSteps rows strategy params K k).equity_curve =
        List.replicate (min k rows.length) ⟨pyRound 2 K, pyRound 2 c⟩ := by
  intro k
  induction k with
  | zero => simp [simSteps, initState, hK]
  | succ k ih =>
    obtain ⟨ihc, ihs, ihfs, ihinv, ihcurve⟩ := ih
    have hstep : simSteps rows strategy params K (k + 1) =
        simStep rows strategy params (simSteps rows strategy params K k) k := rfl
    rw [hstep]
    set s := simSteps rows strategy params K k with hsdef
    unfold simStep
    cases hrow : rows.get? k with
    | none =>
      have hk : rows.length ≤ k := List.get?_eq_none.mp hrow
      have hmin : min (k + 1) rows.length = min k rows.length := by omega
      rw [hmin]
      exact ⟨ihc, ihs, ihfs, ihinv, ihcurve⟩
    | some row =>
      have hclose : row.close = c := hflat row (List.get?_mem hrow)
      have hk : k < rows.length := get?_some_lt hrow
      have hmin1 : min k rows.length = k := by omega
      have hmin2 : min (k + 1) rows.length = k + 1 := by omega
      dsimp only
      rw [hclose, ihinv, ihcurve, hmin1]
      by_cases hb : (!s.position_open && (generate_signals rows k strategy params).1) = true
      · have hopen : s.position_open = false := by
          cases h : s.position_open
          · rfl
          · rw [h] at hb
            simp at hb
        have hsh0 : s.shares = 0 := ihfs hopen
        have hcapK : s.capital = K := by
          have := ihinv
          rw [hsh0] at this
          simpa using this
        rw [if_pos hb]
        by_cases hq : 0 < pyInt (s.capital * 0.95 / c)
        · rw [if_pos hq]
          refine ⟨?_, ?_, ?_, ?_, ?_⟩
          · dsimp only
            have hded := buy_deduction_le ihc hc
            nlinarith
          · exact le_of_lt hq
          · intro h
            simp at h
          · dsimp only
            rw [hcapK]
            ring
          · dsimp only
            rw [hmin2, List.replicate_succ']
        · rw [if_neg hq]
          have hq0 : pyInt (s.capital * 0.95 / c) = 0 := by
            have hnn := pyInt_nonneg
              (div_nonneg (mul_nonneg ihc (by norm_num : (0:ℚ) ≤ 0.95)) hc.le)
            omega
          refine ⟨ihc, ?_, ?_, ?_, ?_⟩
          · dsimp only
            rw [hq0]
          · intro _
            dsimp only
            rw [hq0]
          · dsimp only
            rw [hq0, hcapK]
            simp
          · dsimp only
            rw [hmin2, List.replicate_succ']
      · rw [if_neg hb]
        by_cases hsell : (s.position_open && (generate_signals rows k strategy params).2) = true
        · rw [if_pos hsell]
          refine ⟨?_, ?_, ?_, ?_, ?_⟩
          · exact hK
          · exact le_refl 0
          · intro _
            rfl
          · dsimp only
            simp
          · dsimp only
            rw [hmin2, List.replicate_succ']
        · rw [if_neg hsell]
          refine ⟨ihc, ihs, ihfs, ihinv, ?_⟩
          dsimp only
          rw [hmin2, List.replicate_succ']

theorem boll_signals (M : ℕ) (c : ℚ) (params : Params) (i : ℕ) (hi : i < M) :
    generate_signals (List.replicate M (⟨c, .bollRow c ((c : ℚ) : ℝ) ((c : ℚ) : ℝ)⟩ : SimRow)) i
      "bollinger" params = (true, true) := by
  have h1 : ("bollinger" : String) ≠ "rsi_sma" := by decide
  have h2 : ("bollinger" : String) ≠ "macd" := by decide
  simp [generate_signals, replicate_get?, hi, h1, h2]

theorem simSteps_flatBoll (M : ℕ) (c K : ℚ) (params : Params)
    (s0pos : 0 < pyInt (K * 0.95 / c)) :
    ∀ k, k ≤ M →
      (simSteps (List.replicate M ⟨c, .bollRow c ((c : ℚ) : ℝ) ((c : ℚ) : ℝ)⟩)
          "bollinger" params K k).position_open = decide (k % 2 = 1) ∧
      (simSteps (List.replicate M ⟨c, .bollRow c ((c : ℚ) : ℝ) ((c : ℚ) : ℝ)⟩)
          "bollinger" params K k).capital =
        (if k % 2 = 1 then K - (pyInt (K * 0.95 / c) : ℚ) * c else K) ∧
      (simSteps (List.replicate M ⟨c, .bollRow c ((c : ℚ) : ℝ) ((c : ℚ) : ℝ)⟩)
          "bollinger" params K k).shares =
        (if k % 2 = 1 then pyInt (K * 0.95 / c) else 0) ∧
      (simSteps (List.replicate M ⟨c, .bollRow c ((c : ℚ) : ℝ) ((c : ℚ) : ℝ)⟩)
          "bollinger" params K k).entry_price = (if k % 2 = 1 then c else 0) ∧
      ((simSteps (List.replicate M ⟨c, .bollRow c ((c : ℚ) : ℝ) ((c : ℚ) : ℝ)⟩)
          "bollinger" params K k).trades.filter (fun t => t.kind.isSellKind)).length = k / 2 := by
  intro k
  induction k with
  | zero =>
    intro _
    simp [simSteps, initState]
  | succ k ih =>
    intro hk1
    obtain ⟨ihopen, ihcap, ihsh, ihentry, ihcount⟩ := ih (by omega)
    have hstep : simSteps (List.replicate M ⟨c, .bollRow c ((c : ℚ) : ℝ) ((c : ℚ) : ℝ)⟩)
        "bollinger" params K (k + 1) =
        simStep (List.replicate M ⟨c, .bollRow c ((c : ℚ) : ℝ) ((c : ℚ) : ℝ)⟩)
          "bollinger" params
          (simSteps (List.replicate M ⟨c, .bollRow c ((c : ℚ) : ℝ) ((c : ℚ) : ℝ)⟩)
            "bollinger" params K k) k := rfl
    rw [hstep]
    set s := simSteps (List.replicate M ⟨c, .bollRow c ((c : ℚ) : ℝ) ((c : ℚ) : ℝ)⟩)
      "bollinger" params K k with hsdef
    unfold simStep
    have hrow : (List.replicate M (⟨c, .bollRow c ((c : ℚ) : ℝ) ((c : ℚ) : ℝ)⟩ : SimRow)).get? k =
        some ⟨c, .bollRow c ((c : ℚ) : ℝ) ((c : ℚ) : ℝ)⟩ := by
      rw [replicate_get?, if_pos (by omega)]
    rw [hrow, boll_signals M c params k (by omega)]
    dsimp only
    rcases Nat.mod_two_eq_zero_or_one k with hk2 | hk2
    · have hob : s.position_open = false := by
        rw [ihopen, hk2]
        decide
      have hcapK : s.capital = K := by
        rw [ihcap, hk2]
        norm_num
      have hcond : (!s.position_open && true) = true := by
        rw [hob]
        rfl
      rw [if_pos hcond, hcapK, if_pos s0pos]
      have hk21 : (k + 1) % 2 = 1 := by omega
      refine ⟨?_, ?_, ?_, ?_, ?_⟩
      · dsimp only
        rw [hk21]
        decide
      · dsimp only
        rw [hk21]
        norm_num
      · dsimp only
        rw [hk21]
        norm_num
      · dsimp only
        rw [hk21]
        norm_num
      · dsimp only
        rw [List.filter_append, List.length_append, ihcount]
        simp [TradeKind.isSellKind]
        omega
    · have hob : s.position_open = true := by
        rw [ihopen, hk2]
        decide
      have hcond : ¬((!s.position_open && true) = true) := by
        rw [hob]
        decide
      rw [if_neg hcond]
      have hcond2 : (s.position_open && true) = true := by
        rw [hob]
        rfl
      rw [if_pos hcond2]
      have hk20 : (k + 1) % 2 = 0 := by omega
      refine ⟨?_, ?_, ?_, ?_, ?_⟩
      · dsimp only
        rw [hk20]
        decide
      · dsimp only
        rw [ihcap, ihsh, hk2, hk20]
        norm_num
      · dsimp only
        rw [hk20]
        norm_num
      · dsimp only
        rw [hk20]
        norm_num
      · dsimp only
        rw [List.filter_append, List.length_append, ihcount]
        simp [TradeKind.isSellKind]
        omega

theorem simulate_trades_count (rows : List SimRow) (strategy : String) (params : Params) (K : ℚ) :
    countKind .buy (simulate_trades rows strategy params K).1 =
      countKind .sell (simulate_trades rows strategy params K).1 +
        countKind .sellEnd (simulate_trades rows strategy params K).1 := by
  obtain ⟨h1, h2⟩ := simSteps_count rows strategy params K rows.length
  unfold simulate_trades
  dsimp only
  by_cases hopen : (simSteps rows strategy params K rows.length).position_open = true
  · rw [if_pos hopen] at h1
    rw [if_pos hopen]
    cases hlast : rows.getLast? with
    | none =>
      exfalso
      cases hrows : rows with
      | nil =>
        rw [hrows, simSteps_nil] at hopen
        simp [initState] at hopen
      | cons a l =>
        rw [hrows] at hlast
        simp at hlast
    | some lastRow =>
      dsimp only
      simp only [countKind, List.filter_append, List.length_append] at h1 h2 ⊢
      simp [h1, h2]
  · rw [if_neg hopen] at h1
    rw [if_neg hopen]
    dsimp only
    omega

theorem pyRound_zero (d : ℕ) : pyRound d 0 = 0 := by
  norm_num [pyRound, roundHalfEven]

theorem getLast?_replicate (n : ℕ) (a : α) (h : n ≠ 0) :
    (List.replicate n a).getLast? = some a := by
  cases n with
  | zero => omega
  | succ n =>
    rw [List.replicate_succ', List.getLast?_concat]

theorem foldl_fixed {f : β → α → β} {b : β} (a : α) (hf : f b a = b) :
    ∀ m, List.foldl f b (List.replicate m a) = b := by
  intro m
  induction m with
  | zero => rfl
  | succ m ih => rw [List.replicate_succ, List.foldl_cons, hf, ih]

theorem max_drawdown_calc_replicate (n : ℕ) (v K : ℚ) :
    max_drawdown_calc (List.replicate n v) K = 0 := by
  unfold max_drawdown_calc
  cases n with
  | zero => rfl
  | succ n =>
    have hhead : (List.replicate (n + 1) v).headD K = v := by
      rw [List.replicate_succ]
      rfl
    rw [hhead, foldl_fixed v (by simp [lt_irrefl, sub_self])]

theorem calculate_metrics_flat (trades : List Trade) (m : ℕ) (hm : m ≠ 0) (K c : ℚ)
    (hKr : pyRound 2 K = K) (r : SimRow) :
    (calculate_metrics trades (List.replicate m ⟨pyRound 2 K, pyRound 2 c⟩) K
        (List.replicate m r)).totalReturn = 0 ∧
    (calculate_metrics trades (List.replicate m ⟨pyRound 2 K, pyRound 2 c⟩) K
        (List.replicate m r)).maxDrawdown = 0 ∧
    (calculate_metrics trades (List.replicate m ⟨pyRound 2 K, pyRound 2 c⟩) K
        (List.replicate m r)).buyHoldReturn = 0 ∧
    (calculate_metrics trades (List.replicate m ⟨pyRound 2 K, pyRound 2 c⟩) K
        (List.replicate m r)).totalTrades =
      (trades.filter fun t => t.kind.isSellKind).length ∧
    (calculate_metrics trades (List.replicate m ⟨pyRound 2 K, pyRound 2 c⟩) K
        (List.replicate m r)).finalCapital = K := by
  unfold calculate_metrics
  have hlast := getLast?_replicate m (⟨pyRound 2 K, pyRound 2 c⟩ : EquityPoint) hm
  have hlastr := getLast?_replicate m r hm
  have hheadr : (List.replicate m r).head? = some r := by
    cases m with
    | zero => omega
    | succ m => rw [List.replicate_succ]; rfl
  rw [hlast, hlastr, hheadr]
  simp only [Option.map_some', Option.getD_some]
  rw [List.map_replicate]
  refine ⟨?_, ?_, ?_, ?_, ?_⟩
  · rw [hKr, sub_self, zero_div, zero_mul, pyRound_zero]
  · rw [max_drawdown_calc_replicate, pyRound_zero]
  · rw [sub_self, zero_div, zero_mul, pyRound_zero]
  · trivial
  · rw [hKr]
    exact hKr

theorem macd_signals_flat (n : ℕ) (c : ℚ) (params : Params) (i : ℕ) :
    generate_signals (List.replicate n (⟨c, .macdRow 0 0 0⟩ : SimRow)) i "macd" params =
      (false, false) := by
  have h1 : ("macd" : String) ≠ "rsi_sma" := by decide
  by_cases hi : i < n
  · by_cases h0 : 0 < i
    · have hprev : i - 1 < n := by omega
      simp [generate_signals, List.getElem?_replicate, hi, h0, hprev, h1]
    · simp [generate_signals, List.getElem?_replicate, hi, h0, h1]
  · simp [generate_signals, List.getElem?_replicate, hi]

theorem ma_signals_flat (n : ℕ) (c : ℚ) (params : Params) (i : ℕ) :
    generate_signals (List.replicate n (⟨c, .maCross c c⟩ : SimRow)) i "ma_crossover" params =
      (false, false) := by
  have h1 : ("ma_crossover" : String) ≠ "rsi_sma" := by decide
  have h2 : ("ma_crossover" : String) ≠ "macd" := by decide
  have h3 : ("ma_crossover" : String) ≠ "bollinger" := by decide
  by_cases hi : i < n
  · by_cases h0 : 0 < i
    · have hprev : i - 1 < n := by omega
      simp [generate_signals, List.getElem?_replicate, hi, h0, hprev, h1, h2, h3, lt_irrefl]
    · simp [generate_signals, List.getElem?_replicate, hi, h0, h1, h2, h3]
  · simp [generate_signals, List.getElem?_replicate, hi]

theorem run_backtest_success_eq (closes : List ℚ) (strategy : String) (K : ℚ) (params : Params)
    (optRows : List (Option SimRow)) (h60 : ¬closes.length < 60)
    (haug : augmentRows closes strategy params = some optRows)
    (h10 : ¬(optRows.filterMap id).length < 10) :
    run_backtest closes strategy K params =
      .success
        (calculate_metrics (simulate_trades (optRows.filterMap id) strategy params K).1
          (simulate_trades (optRows.filterMap id) strategy params K).2 K (optRows.filterMap id))
        (lastN 20 (simulate_trades (optRows.filterMap id) strategy params K).1)
        (sliceEvery (max 1 ((simulate_trades (optRows.filterMap id) strategy params K).2.length / 50))
          (simulate_trades (optRows.filterMap id) strategy params K).2) := by
  unfold run_backtest
  rw [if_neg h60, haug]
  dsimp only
  rw [if_neg h10]

theorem simulate_trades_no_signal (rows : List SimRow) (strategy : String) (params : Params)
    (K : ℚ)
    (hsig : ∀ i, i < rows.length → generate_signals rows i strategy params = (false, false)) :
    simulate_trades rows strategy params K =
      ([], rows.map fun r => ⟨pyRound 2 K, pyRound 2 r.close⟩) := by
  unfold simulate_trades
  rw [simSteps_no_signal rows strategy params K hsig rows.length]
  dsimp only
  simp [List.take_length]

theorem simulate_trades_curve (rows : List SimRow) (strategy : String) (params : Params)
    (K : ℚ) :
    (simulate_trades rows strategy params K).2 =
      (simSteps rows strategy params K rows.length).equity_curve := by
  unfold simulate_trades
  dsimp only
  by_cases h : (simSteps rows strategy params K rows.length).position_open = true
  · rw [if_pos h]
    cases rows.getLast? <;> rfl
  · rw [if_neg h]

theorem pyRound_intCast (d : ℕ) (z : ℤ) : pyRound d ((z : ℤ) : ℚ) = z := by
  unfold pyRound roundHalfEven
  have h1 : ((z : ℚ) * 10 ^ d) = ((z * 10 ^ d : ℤ) : ℚ) := by push_cast; ring
  rw [h1, Int.floor_intCast, sub_self, if_neg (by norm_num), round_intCast]
  have h10 : ((10 : ℚ) ^ d) ≠ 0 := by positivity
  push_cast
  rw [mul_div_assoc, div_self h10, mul_one]

theorem flat_run_macd (c K : ℚ) (n : ℕ) (params : Params) (hKr : pyRound 2 K = K)
    (hn : 60 ≤ n) :
    ((run_backtest (List.replicate n c) "macd" K params).summaryOf).map
        (fun m => (m.totalTrades, m.totalReturn, m.maxDrawdown)) = some (0, 0, 0) ∧
    (run_backtest (List.replicate n c) "macd" K params).tradesOf = some [] := by
  have h60 : ¬(List.replicate n c).length < 60 := by
    rw [List.length_replicate]
    omega
  have haug := augment_macd_replicate n c params
  have hfm : (List.replicate n (some (⟨c, .macdRow 0 0 0⟩ : SimRow))).filterMap id =
      List.replicate n ⟨c, .macdRow 0 0 0⟩ := filterMap_id_replicate_some n _
  have h10 : ¬((List.replicate n (some (⟨c, .macdRow 0 0 0⟩ : SimRow))).filterMap id).length
      < 10 := by
    rw [hfm, List.length_replicate]
    omega
  have hrun := run_backtest_success_eq _ "macd" K params _ h60 haug h10
  rw [hfm] at hrun
  have hsig : ∀ i, i < (List.replicate n (⟨c, .macdRow 0 0 0⟩ : SimRow)).length →
      generate_signals (List.replicate n ⟨c, .macdRow 0 0 0⟩) i "macd" params =
        (false, false) := fun i _ => macd_signals_flat n c params i
  rw [simulate_trades_no_signal _ "macd" params K hsig, List.map_replicate] at hrun
  dsimp only at hrun
  obtain ⟨hret, hdd, hbh, htt, hfc⟩ :=
    calculate_metrics_flat [] n (by omega) K c hKr ⟨c, .macdRow 0 0 0⟩
  rw [hrun]
  constructor
  · simp only [BacktestResult.summaryOf, Option.map_some']
    rw [htt, hret, hdd]
    simp
  · simp [BacktestResult.tradesOf, lastN]

theorem flat_run_ma (c K : ℚ) (n : ℕ) (params : Params) (hKr : pyRound 2 K = K)
    (hn : 60 ≤ n) (hf : 1 ≤ params.ma_fast) (hs : 1 ≤ params.ma_slow)
    (h10n : 10 ≤ n - (max params.ma_fast params.ma_slow - 1)) :
    ((run_backtest (List.replicate n c) "ma_crossover" K params).summaryOf).map
        (fun m => (m.totalTrades, m.totalReturn, m.maxDrawdown)) = some (0, 0, 0) ∧
    (run_backtest (List.replicate n c) "ma_crossover" K params).tradesOf = some [] := by
  have h60 : ¬(List.replicate n c).length < 60 := by
    rw [List.length_replicate]
    omega
  have haug := augment_ma_replicate n c params hf hs
  have hfm : (((List.range n).map fun i =>
      if i + 1 < max params.ma_fast params.ma_slow then none
      else some (⟨c, .maCross c c⟩ : SimRow)).filterMap id) =
      List.replicate (n - (max params.ma_fast params.ma_slow - 1)) ⟨c, .maCross c c⟩ :=
    filterMap_rangeMap_if n _ _
  have h10 : ¬(((List.range n).map fun i =>
      if i + 1 < max params.ma_fast params.ma_slow then none
      else some (⟨c, .maCross c c⟩ : SimRow)).filterMap id).length < 10 := by
    rw [hfm, List.length_replicate]
    omega
  have hrun := run_backtest_success_eq _ "ma_crossover" K params _ h60 haug h10
  rw [hfm] at hrun
  have hsig : ∀ i, i < (List.replicate (n - (max params.ma_fast params.ma_slow - 1))
      (⟨c, .maCross c c⟩ : SimRow)).length →
      generate_signals (List.replicate (n - (max params.ma_fast params.ma_slow - 1))
        ⟨c, .maCross c c⟩) i "ma_crossover" params = (false, false) :=
    fun i _ => ma_signals_flat _ c params i
  rw [simulate_trades_no_signal _ "ma_crossover" params K hsig, List.map_replicate] at hrun
  dsimp only at hrun
  obtain ⟨hret, hdd, hbh, htt, hfc⟩ :=
    calculate_metrics_flat [] (n - (max params.ma_fast params.ma_slow - 1)) (by omega) K c hKr
      ⟨c, .maCross c c⟩
  rw [hrun]
  constructor
  · simp only [BacktestResult.summaryOf, Option.map_some']
    rw [htt, hret, hdd]
    simp
  · simp [BacktestResult.tradesOf, lastN]

theorem flat_run_rsi (c K : ℚ) (n : ℕ) (params : Params) (hn : 60 ≤ n) :
    run_backtest (List.replicate n c) "rsi_sma" K params =
      .failure "Not enough data after indicator calculation" := by
  unfold run_backtest
  rw [if_neg (by rw [List.length_replicate]; omega), augment_rsi_replicate]
  dsimp only
  rw [filterMap_id_replicate_none]
  simp

theorem flat_run_boll (c K : ℚ) (n : ℕ) (params : Params) (hc : 0 < c) (hK : 0 < K)
    (hKr : pyRound 2 K = K) (hn : 60 ≤ n) (hp : 2 ≤ params.bb_period)
    (h10n : 10 ≤ n - (params.bb_period - 1)) :
    ((run_backtest (List.replicate n c) "bollinger" K params).summaryOf).map
      (fun m => (m.totalReturn, m.maxDrawdown)) = some (0, 0) := by
  have h60 : ¬(List.replicate n c).length < 60 := by
    rw [List.length_replicate]
    omega
  have haug := augment_bollinger_replicate n c params hp
  have hfm : (((List.range n).map fun i =>
      if i + 1 < params.bb_period then none
      else some (⟨c, .bollRow c ((c : ℚ) : ℝ) ((c : ℚ) : ℝ)⟩ : SimRow)).filterMap id) =
      List.replicate (n - (params.bb_period - 1))
        ⟨c, .bollRow c ((c : ℚ) : ℝ) ((c : ℚ) : ℝ)⟩ :=
    filterMap_rangeMap_if n _ _
  have h10 : ¬(((List.range n).map fun i =>
      if i + 1 < params.bb_period then none
      else some (⟨c, .bollRow c ((c : ℚ) : ℝ) ((c : ℚ) : ℝ)⟩ : SimRow)).filterMap id).length
      < 10 := by
    rw [hfm, List.length_replicate]
    omega
  have hrun := run_backtest_success_eq _ "bollinger" K params _ h60 haug h10
  rw [hfm] at hrun
  have hcurve : (simulate_trades (List.replicate (n - (params.bb_period - 1))
      ⟨c, .bollRow c ((c : ℚ) : ℝ) ((c : ℚ) : ℝ)⟩) "bollinger" params K).2 =
      List.replicate (n - (params.bb_period - 1)) ⟨pyRound 2 K, pyRound 2 c⟩ := by
    rw [simulate_trades_curve]
    have hflat := simSteps_flat (List.replicate (n - (params.bb_period - 1))
        ⟨c, .bollRow c ((c : ℚ) : ℝ) ((c : ℚ) : ℝ)⟩) "bollinger" params K c hc hK.le
      (fun r hr => by rw [List.eq_of_mem_replicate hr])
      (List.replicate (n - (params.bb_period - 1))
        (⟨c, .bollRow c ((c : ℚ) : ℝ) ((c : ℚ) : ℝ)⟩ : SimRow)).length
    rw [hflat.2.2.2.2, List.length_replicate, min_self]
  rw [hcurve] at hrun
  obtain ⟨hret, hdd, hbh, htt, hfc⟩ :=
    calculate_metrics_flat
      (simulate_trades (List.replicate (n - (params.bb_period - 1))
        ⟨c, .bollRow c ((c : ℚ) : ℝ) ((c : ℚ) : ℝ)⟩) "bollinger" params K).1
      (n - (params.bb_period - 1)) (by omega) K c hKr
      ⟨c, .bollRow c ((c : ℚ) : ℝ) ((c : ℚ) : ℝ)⟩
  rw [hrun]
  simp only [BacktestResult.summaryOf, Option.map_some']
  rw [hret, hdd]

/-! ## Claim C1 -/

/-- C1 (counterexample): the 60-bar flat series at price 100 passes both
minimum-bar checks under the `bollinger` strategy (41 bars remain after
warm-up trimming), yet the backtest reports 21 SELL-type trades, not zero:
on a flat series the close equals the lower band at every bar, so the
simulator alternates BUY/SELL on every bar.  This refutes the claim that a
flat series yields zero trades under any of the four strategies. -/
theorem c1_flat_series_counterexample :
    ((run_backtest (List.replicate 60 (100 : ℚ)) "bollinger" 100000
        get_default_params).summaryOf).map Metrics.totalTrades = some 21 := by
  have hp : (2 : ℕ) ≤ get_default_params.bb_period := by decide
  have hbp : get_default_params.bb_period = 20 := rfl
  have hKr : pyRound 2 (100000 : ℚ) = 100000 := by
    simpa using pyRound_intCast 2 100000
  have h60 : ¬(List.replicate 60 (100 : ℚ)).length < 60 := by
    rw [List.length_replicate]
    omega
  have haug := augment_bollinger_replicate 60 100 get_default_params hp
  rw [hbp] at haug
  have hfm := filterMap_rangeMap_if 60 20
    (⟨100, .bollRow 100 ((100 : ℚ) : ℝ) ((100 : ℚ) : ℝ)⟩ : SimRow)
  have h41 : 60 - (20 - 1) = 41 := by norm_num
  rw [h41] at hfm
  have h10 : ¬(((List.range 60).map fun i =>
      if i + 1 < 20 then none
      else some (⟨100, .bollRow 100 ((100 : ℚ) : ℝ) ((100 : ℚ) : ℝ)⟩ : SimRow)).filterMap
        id).length < 10 := by
    rw [hfm, List.length_replicate]
    omega
  have hrun := run_backtest_success_eq _ "bollinger" 100000 get_default_params _ h60 haug h10
  rw [hfm] at hrun
  have hs0 : 0 < pyInt ((100000 : ℚ) * 0.95 / 100) := by
    norm_num [pyInt]
  obtain ⟨hopen, hcap, hsh, hent, hcount⟩ :=
    simSteps_flatBoll 41 100 100000 get_default_params hs0 41 (le_refl 41)
  rw [show (decide (41 % 2 = 1)) = true from rfl] at hopen
  have htr : ((simulate_trades (List.replicate 41
      (⟨100, .bollRow 100 ((100 : ℚ) : ℝ) ((100 : ℚ) : ℝ)⟩ : SimRow)) "bollinger"
      get_default_params 100000).1.filter (fun t => t.kind.isSellKind)).length = 21 := by
    unfold simulate_trades
    dsimp only
    rw [List.length_replicate, if_pos hopen, getLast?_replicate 41 _ (by omega)]
    dsimp only
    rw [List.filter_append, List.length_append, hcount]
    simp [TradeKind.isSellKind]
  have hcurve : (simulate_trades (List.replicate 41
      (⟨100, .bollRow 100 ((100 : ℚ) : ℝ) ((100 : ℚ) : ℝ)⟩ : SimRow)) "bollinger"
      get_default_params 100000).2 =
      List.replicate 41 ⟨pyRound 2 100000, pyRound 2 100⟩ := by
    rw [simulate_trades_curve]
    have hflat := simSteps_flat (List.replicate 41
        (⟨100, .bollRow 100 ((100 : ℚ) : ℝ) ((100 : ℚ) : ℝ)⟩ : SimRow)) "bollinger"
      get_default_params 100000 100 (by norm_num) (by norm_num)
      (fun r hr => by rw [List.eq_of_mem_replicate hr])
      (List.replicate 41
        (⟨100, .bollRow 100 ((100 : ℚ) : ℝ) ((100 : ℚ) : ℝ)⟩ : SimRow)).length
    rw [hflat.2.2.2.2, List.length_replicate, min_self]
  rw [hcurve] at hrun
  obtain ⟨_, _, _, htt, _⟩ := calculate_metrics_flat
    (simulate_trades (List.replicate 41
      (⟨100, .bollRow 100 ((100 : ℚ) : ℝ) ((100 : ℚ) : ℝ)⟩ : SimRow)) "bollinger"
      get_default_params 100000).1 41 (by omega) 100000 100 hKr
    ⟨100, .bollRow 100 ((100 : ℚ) : ℝ) ((100 : ℚ) : ℝ)⟩
  rw [hrun]
  simp only [BacktestResult.summaryOf, Option.map_some']
  rw [htt, htr]

/-- C1 (amended): on a flat series of `n ≥ 60` bars at a positive price `c`,
with a positive cent-representable initial capital, the behaviour is
strategy-dependent: `macd` and `ma_crossover` yield a success with zero
trades, `totalReturn = 0` and `maxDrawdown = 0`; `rsi_sma` fails with the
"Not enough data after indicator calculation" error (the RSI is 0/0 = NaN at
every bar, so warm-up trimming removes every row); `bollinger` succeeds with
`totalReturn = 0` and `maxDrawdown = 0` but may trade on every bar. -/
theorem c1_flat_series_amended (c K : ℚ) (n : ℕ) (hc : 0 < c) (hK : 0 < K)
    (hKr : pyRound 2 K = K) (hn : 60 ≤ n) :
    ((run_backtest (List.replicate n c) "macd" K get_default_params).summaryOf).map
        (fun m => (m.totalTrades, m.totalReturn, m.maxDrawdown)) = some (0, 0, 0) ∧
    (run_backtest (List.replicate n c) "macd" K get_default_params).tradesOf = some [] ∧
    ((run_backtest (List.replicate n c) "ma_crossover" K get_default_params).summaryOf).map
        (fun m => (m.totalTrades, m.totalReturn, m.maxDrawdown)) = some (0, 0, 0) ∧
    (run_backtest (List.replicate n c) "ma_crossover" K get_default_params).tradesOf =
      some [] ∧
    run_backtest (List.replicate n c) "rsi_sma" K get_default_params =
      .failure "Not enough data after indicator calculation" ∧
    ((run_backtest (List.replicate n c) "bollinger" K get_default_params).summaryOf).map
      (fun m => (m.totalReturn, m.maxDrawdown)) = some (0, 0) := by
  obtain ⟨hm1, hm2⟩ := flat_run_macd c K n get_default_params hKr hn
  obtain ⟨ha1, ha2⟩ := flat_run_ma c K n get_default_params hKr hn (by decide) (by decide)
    (by show 10 ≤ n - (max 10 50 - 1); omega)
  refine ⟨hm1, hm2, ha1, ha2, flat_run_rsi c K n get_default_params hn, ?_⟩
  exact flat_run_boll c K n get_default_params hc hK hKr hn (by decide)
    (by show 10 ≤ n - (20 - 1); omega)

/-- C1 (witness): the amended claim instantiated on the 60-bar flat series at
price 100 with the default initial capital 100000. -/
theorem c1_flat_series_witness :
    (0 < (100 : ℚ) ∧ 0 < (100000 : ℚ) ∧ pyRound 2 (100000 : ℚ) = 100000 ∧ 60 ≤ 60) ∧
    ((run_backtest (List.replicate 60 (100 : ℚ)) "macd" 100000
        get_default_params).summaryOf).map
      (fun m => (m.totalTrades, m.totalReturn, m.maxDrawdown)) = some (0, 0, 0) := by
  have hKr : pyRound 2 (100000 : ℚ) = 100000 := by
    simpa using pyRound_intCast 2 100000
  refine ⟨⟨by norm_num, by norm_num, hKr, le_refl 60⟩, ?_⟩
  exact (c1_flat_series_amended 100 100000 60 (by norm_num) (by norm_num) hKr
    (le_refl 60)).1

/-! ## Claim C9 -/

/-- C9: the crossover strategies (`macd` and `ma_crossover`) never produce a
buy or sell signal on the first bar of the trimmed series: at index 0 there
is no preceding trimmed bar, both signals are false, and the bar is a HOLD. -/
theorem c9_no_first_bar_signal (rows : List SimRow) (params : Params) :
    generate_signals rows 0 "macd" params = (false, false) ∧
    generate_signals rows 0 "ma_crossover" params = (false, false) := by
  have h1 : ("macd" : String) ≠ "rsi_sma" := by decide
  have h2 : ("ma_crossover" : String) ≠ "rsi_sma" := by decide
  have h3 : ("ma_crossover" : String) ≠ "macd" := by decide
  have h4 : ("ma_crossover" : String) ≠ "bollinger" := by decide
  constructor
  · unfold generate_signals
    cases h : rows.get? 0 with
    | none => rfl
    | some row =>
      obtain ⟨cl, ind⟩ := row
      cases ind <;> rfl
  · unfold generate_signals
    cases h : rows.get? 0 with
    | none => rfl
    | some row =>
      obtain ⟨cl, ind⟩ := row
      cases ind <;> rfl

/-! ## Claim C7 -/

/-- C7 (counterexample): with fewer than 60 raw bars, the raw-length check of
`run_backtest` fires before strategy validation, so a request with the
unknown strategy id "foo" returns the insufficient-data failure, not the
unknown-strategy failure. -/
theorem c7_unknown_strategy_counterexample :
    run_backtest (List.replicate 30 (1 : ℚ)) "foo" 100000 get_default_params =
        .failure "Not enough historical data (need 60+ days)" ∧
    run_backtest (List.replicate 30 (1 : ℚ)) "foo" 100000 get_default_params ≠
        .failure ("Unknown strategy: " ++ "foo") := by
  have h : run_backtest (List.replicate 30 (1 : ℚ)) "foo" 100000 get_default_params =
      .failure "Not enough historical data (need 60+ days)" := by
    unfold run_backtest
    rw [if_pos (by rw [List.length_replicate]; omega)]
  refine ⟨h, ?_⟩
  rw [h]
  intro hcontra
  have : ("Not enough historical data (need 60+ days)" : String) =
      "Unknown strategy: " ++ "foo" := by
    injection hcontra
  exact absurd this (by decide)

/-- C7 (amended): for every strategy id outside {rsi_sma, macd, bollinger,
ma_crossover} and every series passing the raw-length check (at least 60
bars), the orchestrator returns the unknown-strategy failure.  The result is
the same for every series content and parameter set: no indicator
computation is attempted. -/
theorem c7_unknown_strategy (closes : List ℚ) (strategy : String) (K : ℚ) (params : Params)
    (hstrat : strategy ∉ knownStrategies) (hlen : 60 ≤ closes.length) :
    run_backtest closes strategy K params = .failure ("Unknown strategy: " ++ strategy) := by
  simp only [knownStrategies, List.mem_cons, List.not_mem_nil, or_false, not_or] at hstrat
  obtain ⟨h1, h2, h3, h4⟩ := hstrat
  have haug : augmentRows closes strategy params = none := by
    unfold augmentRows
    rw [if_neg h1, if_neg h2, if_neg h3, if_neg h4]
  unfold run_backtest
  rw [if_neg (by omega), haug]

/-- C7 (witness): strategy id `"foo"` on a 60-bar series. -/
theorem c7_unknown_strategy_witness :
    (("foo" : String) ∉ knownStrategies ∧ 60 ≤ (List.replicate 60 (1 : ℚ)).length) ∧
    run_backtest (List.replicate 60 (1 : ℚ)) "foo" 100000 get_default_params =
      .failure ("Unknown strategy: " ++ "foo") := by
  have h1 : ("foo" : String) ∉ knownStrategies := by decide
  have h2 : 60 ≤ (List.replicate 60 (1 : ℚ)).length := by
    rw [List.length_replicate]
  exact ⟨⟨h1, h2⟩, c7_unknown_strategy _ "foo" 100000 get_default_params h1 h2⟩

/-! ## Claim C6 -/

theorem augmentRows_known (closes : List ℚ) (params : Params) {strategy : String}
    (hmem : strategy ∈ knownStrategies) :
    ∃ optRows, augmentRows closes strategy params = some optRows := by
  fin_cases hmem
  · exact ⟨_, by unfold augmentRows; rw [if_pos rfl]⟩
  · exact ⟨_, by
      unfold augmentRows
      rw [if_neg (by decide), if_pos rfl]⟩
  · exact ⟨_, by
      unfold augmentRows
      rw [if_neg (by decide), if_neg (by decide), if_pos rfl]⟩
  · exact ⟨_, by
      unfold augmentRows
      rw [if_neg (by decide), if_neg (by decide), if_neg (by decide), if_pos rfl]⟩

/-- C6: a request with fewer than 60 raw bars, or a recognized strategy for
which fewer than 10 bars remain after warm-up trimming, yields a structured
failure carrying no metrics, no trades and no equity curve. -/
theorem c6_insufficient_data (closes : List ℚ) (strategy : String) (K : ℚ) (params : Params)
    (h : closes.length < 60 ∨
      (strategy ∈ knownStrategies ∧ 60 ≤ closes.length ∧
        (trimmedRows closes strategy params).length < 10)) :
    (run_backtest closes strategy K params =
        .failure "Not enough historical data (need 60+ days)" ∨
      run_backtest closes strategy K params =
        .failure "Not enough data after indicator calculation") ∧
    (run_backtest closes strategy K params).summaryOf = none ∧
    (run_backtest closes strategy K params).tradesOf = none ∧
    (run_backtest closes strategy K params).equityCurveOf = none := by
  have hfail : run_backtest closes strategy K params =
      .failure "Not enough historical data (need 60+ days)" ∨
      run_backtest closes strategy K params =
        .failure "Not enough data after indicator calculation" := by
    rcases h with h60 | ⟨hmem, h60, h10⟩
    · left
      unfold run_backtest
      rw [if_pos h60]
    · right
      obtain ⟨optRows, haug⟩ := augmentRows_known closes params hmem
      have htrim : trimmedRows closes strategy params = optRows.filterMap id := by
        unfold trimmedRows
        rw [haug]
        rfl
      rw [htrim] at h10
      unfold run_backtest
      rw [if_neg (by omega), haug]
      dsimp only
      rw [if_pos h10]
  refine ⟨hfail, ?_, ?_, ?_⟩ <;> rcases hfail with hf | hf <;> rw [hf] <;> rfl

/-- C6 (witness): the empty series triggers the raw-length failure. -/
theorem c6_insufficient_data_witness :
    (([] : List ℚ).length < 60 ∨
      ("macd" ∈ knownStrategies ∧ 60 ≤ ([] : List ℚ).length ∧
        (trimmedRows [] "macd" get_default_params).length < 10)) ∧
    (run_backtest [] "macd" 100000 get_default_params).summaryOf = none := by
  have h : ([] : List ℚ).length < 60 ∨
      ("macd" ∈ knownStrategies ∧ 60 ≤ ([] : List ℚ).length ∧
        (trimmedRows [] "macd" get_default_params).length < 10) := Or.inl (by decide)
  exact ⟨h, (c6_insufficient_data [] "macd" 100000 get_default_params h).2.1⟩

/-! ## Claim C10 -/

/-- C10: for a trade list with no SELL-type entries, the metrics report
`winRate = 0`, `totalTrades = 0`, `winningTrades = 0` and `losingTrades = 0`
rather than failing on the empty set (`win_rate` is guarded by the
emptiness check in `calculate_metrics`). -/
theorem c10_no_sell_metrics (trades : List Trade) (equity_curve : List EquityPoint)
    (K : ℚ) (rows : List SimRow)
    (h : ∀ t ∈ trades, t.kind.isSellKind = false) :
    (calculate_metrics trades equity_curve K rows).winRate = 0 ∧
    (calculate_metrics trades equity_curve K rows).totalTrades = 0 ∧
    (calculate_metrics trades equity_curve K rows).winningTrades = 0 ∧
    (calculate_metrics trades equity_curve K rows).losingTrades = 0 := by
  have hfilter : trades.filter (fun t => t.kind.isSellKind) = [] := by
    rw [List.filter_eq_nil]
    intro t ht
    rw [h t ht]
    exact Bool.false_ne_true
  unfold calculate_metrics
  rw [hfilter]
  refine ⟨?_, rfl, rfl, rfl⟩
  dsimp only
  rw [if_neg (fun hne => hne rfl), pyRound_zero]

/-- C10 (witness): a trade list holding a single BUY trade. -/
theorem c10_no_sell_metrics_witness :
    (∀ t ∈ [(⟨.buy, 1, 1, none, none⟩ : Trade)], t.kind.isSellKind = false) ∧
    (calculate_metrics [⟨.buy, 1, 1, none, none⟩] [] 100000 []).winRate = 0 ∧
    (calculate_metrics [⟨.buy, 1, 1, none, none⟩] [] 100000 []).totalTrades = 0 := by
  have h : ∀ t ∈ [(⟨.buy, 1, 1, none, none⟩ : Trade)], t.kind.isSellKind = false := by
    intro t ht
    rw [List.mem_singleton] at ht
    subst ht
    rfl
  obtain ⟨h1, h2, _, _⟩ := c10_no_sell_metrics [⟨.buy, 1, 1, none, none⟩] [] 100000 [] h
  exact ⟨h, h1, h2⟩

/-! ## Claim C4 -/

/-- C4: for strictly positive closes and non-negative initial capital, cash is
never negative at any point of the simulation; a BUY deducts
`floor(cash × 0.95 / close) × close`, which never exceeds the cash held; and
when the floor is 0 with the simulator flat, no trade is emitted and the
state stays FLAT. -/
theorem c4_cash_never_negative (rows : List SimRow) (strategy : String) (params : Params)
    (K : ℚ) (hpos : ∀ r ∈ rows, 0 < r.close) (hK : 0 ≤ K) :
    (∀ k, 0 ≤ (simSteps rows strategy params K k).capital) ∧
    (∀ k row, rows.get? k = some row →
      (pyInt ((simSteps rows strategy params K k).capital * 0.95 / row.close) : ℚ) *
        row.close ≤ (simSteps rows strategy params K k).capital) ∧
    (∀ k row, rows.get? k = some row →
      (simSteps rows strategy params K k).position_open = false →
      pyInt ((simSteps rows strategy params K k).capital * 0.95 / row.close) = 0 →
      (simSteps rows strategy params K (k + 1)).trades =
          (simSteps rows strategy params K k).trades ∧
        (simSteps rows strategy params K (k + 1)).position_open = false) := by
  refine ⟨fun k => (simSteps_cash_nonneg rows strategy params K hpos hK k).1, ?_, ?_⟩
  · intro k row hrow
    have hprice : 0 < row.close := hpos row (List.get?_mem hrow)
    have hcap := (simSteps_cash_nonneg rows strategy params K hpos hK k).1
    have hded := buy_deduction_le hcap hprice
    nlinarith
  · intro k row hrow hopen hq0
    have hstep : simSteps rows strategy params K (k + 1) =
        simStep rows strategy params (simSteps rows strategy params K k) k := rfl
    rw [hstep]
    unfold simStep
    rw [hrow]
    dsimp only
    by_cases hb : (!(simSteps rows strategy params K k).position_open &&
        (generate_signals rows k strategy params).1) = true
    · rw [if_pos hb, hq0]
      rw [if_neg (by norm_num)]
      exact ⟨rfl, hopen⟩
    · rw [if_neg hb]
      have hsell : ¬(((simSteps rows strategy params K k).position_open &&
          (generate_signals rows k strategy params).2) = true) := by
        rw [hopen]
        simp
      rw [if_neg hsell]
      exact ⟨rfl, hopen⟩

/-- C4 (witness): the one-bar frame with close 2 and capital 100. -/
theorem c4_cash_never_negative_witness :
    ((∀ r ∈ oneBuyRow, 0 < r.close) ∧ (0 : ℚ) ≤ 100) ∧
    ∀ k, 0 ≤ (simSteps oneBuyRow "rsi_sma" get_default_params 100 k).capital := by
  have hpos : ∀ r ∈ oneBuyRow, 0 < r.close := by
    intro r hr
    simp only [oneBuyRow, List.mem_singleton] at hr
    subst hr
    norm_num
  have hK : (0 : ℚ) ≤ 100 := by norm_num
  exact ⟨⟨hpos, hK⟩,
    (c4_cash_never_negative oneBuyRow "rsi_sma" get_default_params 100 hpos hK).1⟩

/-! ## Claim C5 -/

/-- C5: in every completed simulation the number of BUY trades equals the
number of SELL plus SELL_FORCED trades; and if the loop ends still LONG, the
simulator liquidates at the final close, emitting a final SELL_FORCED
(`"SELL (End)"`) trade, so every backtest ends fully in cash. -/
theorem c5_every_position_closed (rows : List SimRow) (strategy : String) (params : Params)
    (K : ℚ) :
    countKind .buy (simulate_trades rows strategy params K).1 =
      countKind .sell (simulate_trades rows strategy params K).1 +
        countKind .sellEnd (simulate_trades rows strategy params K).1 ∧
    ((simSteps rows strategy params K rows.length).position_open = true →
      ∃ lastRow, rows.getLast? = some lastRow ∧
        (simulate_trades rows strategy params K).1 =
          (simSteps rows strategy params K rows.length).trades ++
            [⟨.sellEnd, pyRound 2 lastRow.close,
              (simSteps rows strategy params K rows.length).shares,
              some (pyRound 2 ((lastRow.close -
                (simSteps rows strategy params K rows.length).entry_price) *
                ((simSteps rows strategy params K rows.length).shares : ℚ))),
              some (pyRound 2 ((lastRow.close -
                (simSteps rows strategy params K rows.length).entry_price) /
                (simSteps rows strategy params K rows.length).entry_price * 100))⟩]) := by
  refine ⟨simulate_trades_count rows strategy params K, ?_⟩
  intro hopen
  cases hlast : rows.getLast? with
  | none =>
    exfalso
    cases hrows : rows with
    | nil =>
      rw [hrows, simSteps_nil] at hopen
      simp [initState] at hopen
    | cons a l =>
      rw [hrows] at hlast
      simp at hlast
  | some lastRow =>
    refine ⟨lastRow, rfl, ?_⟩
    unfold simulate_trades
    dsimp only
    rw [if_pos hopen, hlast]

/-- C5 (witness): on the one-bar buy-signal frame the loop ends LONG, and the
simulator appends the forced liquidation trade. -/
theorem c5_every_position_closed_witness :
    (simSteps oneBuyRow "rsi_sma" get_default_params 100 oneBuyRow.length).position_open =
      true ∧
    ∃ lastRow, oneBuyRow.getLast? = some lastRow ∧
      (simulate_trades oneBuyRow "rsi_sma" get_default_params 100).1 =
        (simSteps oneBuyRow "rsi_sma" get_default_params 100 oneBuyRow.length).trades ++
          [⟨.sellEnd, pyRound 2 lastRow.close,
            (simSteps oneBuyRow "rsi_sma" get_default_params 100 oneBuyRow.length).shares,
            some (pyRound 2 ((lastRow.close -
              (simSteps oneBuyRow "rsi_sma" get_default_params 100
                oneBuyRow.length).entry_price) *
              ((simSteps oneBuyRow "rsi_sma" get_default_params 100
                oneBuyRow.length).shares : ℚ))),
            some (pyRound 2 ((lastRow.close -
              (simSteps oneBuyRow "rsi_sma" get_default_params 100
                oneBuyRow.length).entry_price) /
              (simSteps oneBuyRow "rsi_sma" get_default_params 100
                oneBuyRow.length).entry_price * 100))⟩] := by
  have hsig : generate_signals oneBuyRow 0 "rsi_sma" get_default_params = (true, false) := by
    norm_num [generate_signals, oneBuyRow, get_default_params]
  have hopen : (simSteps oneBuyRow "rsi_sma" get_default_params 100
      oneBuyRow.length).position_open = true := by
    show (simStep oneBuyRow "rsi_sma" get_default_params (initState 100) 0).position_open = true
    unfold simStep
    rw [show oneBuyRow.get? 0 = some ⟨2, .rsiSma 10 1⟩ from rfl, hsig]
    dsimp only [initState]
    rw [if_pos (show (!false && true) = true from rfl)]
    have hshares : 0 < pyInt ((100 : ℚ) * 0.95 / 2) := by
      norm_num [pyInt]
    rw [if_pos hshares]
  exact ⟨hopen,
    (c5_every_position_closed oneBuyRow "rsi_sma" get_default_params 100).2 hopen⟩

/-! ## Claim C8 -/

theorem sliceEvery_get? (k : ℕ) (hk : 1 ≤ k) :
    ∀ (n : ℕ) (xs : List α), xs.length ≤ n → ∀ j,
      (sliceEvery k xs).get? j = xs.get? (j * k) := by
  intro n
  induction n with
  | zero =>
    intro xs hlen j
    rw [List.length_eq_zero.mp (Nat.le_zero.mp hlen)]
    simp [sliceEvery]
  | succ n ih =>
    intro xs hlen j
    cases xs with
    | nil => simp [sliceEvery]
    | cons x rest =>
      rw [sliceEvery]
      cases j with
      | zero => simp
      | succ j =>
        rw [List.get?_cons_succ,
          ih (rest.drop (k - 1)) (by rw [List.length_drop]; simp at hlen; omega) j,
          List.get?_drop, Nat.succ_mul]
        have heq : j * k + k = (k - 1 + j * k) + 1 := by omega
        rw [heq, List.get?_cons_succ]

theorem isSuccess_of_summaryOf {r : BacktestResult} {m : Metrics}
    (h : r.summaryOf = some m) : r.isSuccess = true := by
  cases r with
  | failure e => simp [BacktestResult.summaryOf] at h
  | success m t e => rfl

/-- C8: every successful run down-samples the equity curve with stride
`max 1 (floor(L/50))` where `L` is the full curve length, and the sampled
curve is evenly spaced: its `j`-th point is the `j×stride`-th point of the
full curve. -/
theorem c8_equity_downsample (closes : List ℚ) (strategy : String) (K : ℚ) (params : Params)
    (hsucc : (run_backtest closes strategy K params).isSuccess = true) :
    (run_backtest closes strategy K params).equityCurveOf =
      some (sliceEvery
        (max 1 ((simulate_trades (trimmedRows closes strategy params) strategy params
          K).2.length / 50))
        (simulate_trades (trimmedRows closes strategy params) strategy params K).2) ∧
    ∀ j, (sliceEvery
        (max 1 ((simulate_trades (trimmedRows closes strategy params) strategy params
          K).2.length / 50))
        (simulate_trades (trimmedRows closes strategy params) strategy params K).2).get? j =
      (simulate_trades (trimmedRows closes strategy params) strategy params K).2.get?
        (j * max 1 ((simulate_trades (trimmedRows closes strategy params) strategy params
          K).2.length / 50)) := by
  constructor
  · unfold run_backtest at hsucc ⊢
    by_cases h60 : closes.length < 60
    · rw [if_pos h60] at hsucc
      simp [BacktestResult.isSuccess] at hsucc
    · rw [if_neg h60] at hsucc ⊢
      cases haug : augmentRows closes strategy params with
      | none =>
        rw [haug] at hsucc
        simp [BacktestResult.isSuccess] at hsucc
      | some optRows =>
        rw [haug] at hsucc
        dsimp only at hsucc ⊢
        by_cases h10 : (optRows.filterMap id).length < 10
        · rw [if_pos h10] at hsucc
          simp [BacktestResult.isSuccess] at hsucc
        · rw [if_neg h10]
          have htrim : trimmedRows closes strategy params = optRows.filterMap id := by
            unfold trimmedRows
            rw [haug]
            rfl
          rw [htrim]
          rfl
  · intro j
    exact sliceEvery_get? _ (le_max_left 1 _) _ _ (le_refl _) j

/-- C8 (witness): the flat 60-bar ma_crossover run succeeds, so its equity
curve in the payload is the stride-sampled full curve. -/
theorem c8_equity_downsample_witness :
    (run_backtest (List.replicate 60 (100 : ℚ)) "ma_crossover" 100000
        get_default_params).isSuccess = true ∧
    (run_backtest (List.replicate 60 (100 : ℚ)) "ma_crossover" 100000
        get_default_params).equityCurveOf =
      some (sliceEvery
        (max 1 ((simulate_trades (trimmedRows (List.replicate 60 (100 : ℚ)) "ma_crossover"
          get_default_params) "ma_crossover" get_default_params 100000).2.length / 50))
        (simulate_trades (trimmedRows (List.replicate 60 (100 : ℚ)) "ma_crossover"
          get_default_params) "ma_crossover" get_default_params 100000).2) := by
  have hKr : pyRound 2 (100000 : ℚ) = 100000 := by
    simpa using pyRound_intCast 2 100000
  obtain ⟨hsum, _⟩ := flat_run_ma 100 100000 60 get_default_params hKr (le_refl 60)
    (by decide) (by decide) (by show 10 ≤ 60 - (max 10 50 - 1); omega)
  have hsucc : (run_backtest (List.replicate 60 (100 : ℚ)) "ma_crossover" 100000
      get_default_params).isSuccess = true := by
    cases hr : (run_backtest (List.replicate 60 (100 : ℚ)) "ma_crossover" 100000
        get_default_params) with
    | failure e => rw [hr] at hsum; simp [BacktestResult.summaryOf] at hsum
    | success m t e => rfl
  exact ⟨hsucc, (c8_equity_downsample (List.replicate 60 (100 : ℚ)) "ma_crossover" 100000
    get_default_params hsucc).1⟩

/-! ## Claim C2 -/

theorem windowAt_eq_drop_take (xs : List ℚ) (p i : ℕ) (hw : p ≤ i + 1) :
    windowAt xs p i = (xs.drop (i + 1 - p)).take p := by
  unfold windowAt
  rw [List.take_drop]
  have he : i + 1 - p + p = i + 1 := by omega
  rw [he]

/-- C2 (counterexample): on the series [0, 1] with period 2 and multiplier 2,
at index 1 (full window), the upper band computed by the code differs from
the spec's population-standard-deviation band: the code uses the sample
standard deviation `sqrt(1/2)` (divisor p−1 = 1) where the spec prescribes
the population value `sqrt(1/4)` (divisor p = 2). -/
theorem c2_bollinger_band_counterexample :
    (calculate_bollinger_bands [0, 1] 2 2).2.1.get? 1 ≠
      some (some (bbUpperSpec [0, 1] 2 2 1)) := by
  have hm : rollingMean 2 [0, 1] = [none, some (1/2)] := by
    norm_num [rollingMean, windowAt, List.range_succ]
  have hv : rollingVar 2 [0, 1] = [none, some (1/2)] := by
    norm_num [rollingVar, windowAt, List.range_succ]
  have hcode : (calculate_bollinger_bands [0, 1] 2 2).2.1.get? 1 =
      some (some ((1/2 : ℝ) + 2 * Real.sqrt (1/2))) := by
    unfold calculate_bollinger_bands
    rw [hm, hv]
    norm_num
  have hspec : bbUpperSpec [0, 1] 2 2 1 = (1/2 : ℝ) + 2 * Real.sqrt (1/4) := by
    unfold bbUpperSpec popStdSpec popVarSpec bbMidSpec
    norm_num
  rw [hcode, hspec]
  intro hcontra
  rw [Option.some.injEq, Option.some.injEq] at hcontra
  have heq : Real.sqrt (1/2) = Real.sqrt (1/4) := by linarith
  rw [Real.sqrt_inj (by norm_num) (by norm_num)] at heq
  norm_num at heq

/-- C2 (amended): for every price series, every period `p ≥ 2` and every
multiplier `m`, at every index whose trailing `p`-bar window is full the code
returns `middle = SMA(p)` and `upper/lower = middle ± m ×` rolling SAMPLE
standard deviation (divisor `p − 1`, pandas `ddof=1`) over the same window;
for `p = 1` the standard deviation, hence the bands, are undefined (NaN). -/
theorem c2_bollinger_band_amended (prices : List ℚ) (p : ℕ) (m : ℚ) (i : ℕ)
    (hp : 2 ≤ p) (hw : p ≤ i + 1) (hi : i < prices.length) :
    (calculate_bollinger_bands prices p m).1.get? i = some (some (bbMidSpec prices p i)) ∧
    (calculate_bollinger_bands prices p m).2.1.get? i =
      some (some ((bbMidSpec prices p i : ℝ) + (m : ℝ) * sampleStdSpec prices p i)) ∧
    (calculate_bollinger_bands prices p m).2.2.get? i =
      some (some ((bbMidSpec prices p i : ℝ) - (m : ℝ) * sampleStdSpec prices p i)) := by
  have hwin := windowAt_eq_drop_take prices p i hw
  have hnw : ¬i + 1 < p := by omega
  have hnv : ¬(i + 1 < p ∨ p < 2) := by omega
  have hmean : (rollingMean p prices).get? i = some (some (bbMidSpec prices p i)) := by
    unfold rollingMean
    rw [rangeMap_get?, if_pos hi, if_neg hnw, hwin]
    rfl
  have hvar : (rollingVar p prices).get? i = some (some (sampleVarSpec prices p i)) := by
    unfold rollingVar
    rw [rangeMap_get?, if_pos hi, if_neg hnv, hwin]
    rfl
  refine ⟨hmean, ?_, ?_⟩
  · unfold calculate_bollinger_bands
    dsimp only
    rw [zipWith_get2, List.get?_map, hmean, hvar]
    rfl
  · unfold calculate_bollinger_bands
    dsimp only
    rw [zipWith_get2, List.get?_map, hmean, hvar]
    rfl

/-- C2 (witness): the amended statement instantiated on [0, 1], p = 2,
m = 2, i = 1. -/
theorem c2_bollinger_band_witness :
    ((2 : ℕ) ≤ 2 ∧ 2 ≤ 1 + 1 ∧ 1 < ([0, 1] : List ℚ).length) ∧
    (calculate_bollinger_bands [0, 1] 2 2).1.get? 1 =
      some (some (bbMidSpec [0, 1] 2 1)) := by
  refine ⟨⟨le_refl 2, le_refl 2, by norm_num⟩, ?_⟩
  exact (c2_bollinger_band_amended [0, 1] 2 2 1 (le_refl 2) (le_refl 2) (by norm_num)).1

/-! ## Claim C3 -/

/-- C3 (counterexample): on the 14-bar constant series, at index 13 the RSI
window is full and the trailing average loss is zero, yet the RSI value is
NaN (undefined) rather than 100: the average gain is also zero there and
pandas evaluates `rs = 0/0` to NaN, which propagates through
`100 - 100/(1 + rs)`. -/
theorem c3_rsi_zero_loss_counterexample :
    (rsiLossAvg (List.replicate 14 (100 : ℚ)) 14).get? 13 = some (some 0) ∧
    (calculate_rsi (List.replicate 14 (100 : ℚ)) 14).get? 13 = some F.nan := by
  constructor
  · unfold rsiLossAvg
    rw [rsiLosses_replicate, rollingMean_replicate 14 14 0 (by omega) 13]
    norm_num
  · rw [calculate_rsi_replicate]
    norm_num

/-- C3 (amended): at every bar with a full RSI window and zero trailing
average loss, the RSI is the defined value 100 when the trailing average
gain is positive (rs = gain/0 = +inf, 100 − 100/(1+inf) = 100), but it is
NaN — undefined, and the bar is later dropped by warm-up trimming — when the
average gain is also zero (rs = 0/0 = NaN). -/
theorem c3_rsi_zero_loss_amended (prices : List ℚ) (period : ℕ) (i : ℕ) (g : ℚ)
    (hl : (rsiLossAvg prices period).get? i = some (some 0))
    (hg : (rsiGainAvg prices period).get? i = some (some g)) :
    (0 < g → (calculate_rsi prices period).get? i = some (F.val 100)) ∧
    (g = 0 → (calculate_rsi prices period).get? i = some F.nan) := by
  unfold calculate_rsi
  rw [zipWith_get2, hg, hl]
  constructor
  · intro hgpos
    have hg0 : g ≠ 0 := ne_of_gt hgpos
    simp [F.ofOpt, F.div, F.add, F.sub, hg0, hgpos]
  · intro hg0
    subst hg0
    simp [F.ofOpt, F.div, F.add, F.sub]

/-- C3 (witness): on the series [1, 2] with period 1, at index 1 the average
loss is 0 and the average gain is 1 > 0, and the RSI is 100. -/
theorem c3_rsi_zero_loss_witness :
    ((rsiLossAvg [1, 2] 1).get? 1 = some (some 0) ∧
      (rsiGainAvg [1, 2] 1).get? 1 = some (some 1) ∧ (0 : ℚ) < 1) ∧
    (calculate_rsi [(1 : ℚ), 2] 1).get? 1 = some (F.val 100) := by
  have hl : (rsiLossAvg [(1 : ℚ), 2] 1).get? 1 = some (some 0) := by
    norm_num [rsiLossAvg, rsiLosses, diffF, rollingMean, windowAt, List.range_succ]
  have hg : (rsiGainAvg [(1 : ℚ), 2] 1).get? 1 = some (some 1) := by
    norm_num [rsiGainAvg, rsiGains, diffF, rollingMean, windowAt, List.range_succ]
  exact ⟨⟨hl, hg, by norm_num⟩,
    (c3_rsi_zero_loss_amended [1, 2] 1 1 1 hl hg).1 (by norm_num)⟩

end TradingBot
